import Mathlib

/-!
Shallow embedding of the merge/dispatch core of the audio-recordings
ingress pipeline (`merge_and_email.py`, with the row produced by
`tag_transcripts.py`).  A spreadsheet ("sheet") is its raw
values-API representation: a list of rows, each a list of cell strings;
the first row, when present, is the header.  A pandas `DataFrame`
obtained by `download_sheet_as_df` is a `Table`: a header plus rows
normalized (padded/truncated) to the header's width.
-/

namespace NOS

/-- Column-name constants from `merge_and_email.py`. -/
def UNIQUE_ID_COLUMN : String := "gd_transcript_file_id"

def MERGE_STATUS_TAG : String := "merge_status_tag"

def MERGE_STATUS_TRANSCRIBE : String := "merge_status_transcribe"

def SENT_FLAG_COLUMN : String := "sent_flag"

/-- A raw sheet as returned by the values API: rows of cell strings,
first row the header (when the sheet is non-empty). -/
abbrev Sheet := List (List String)

/-- Right-pad a row with empty strings to length `n` (no-op when already
at least that long). -/
def padTo (n : Nat) (r : List String) : List String :=
  r ++ List.replicate (n - r.length) ""

/-- `download_sheet_as_df` row adjustment: truncate to the header width,
then right-pad with empty strings (lines 174-184). -/
def normalizeRow (n : Nat) (r : List String) : List String :=
  padTo n (r.take n)

/-- A pandas DataFrame: header plus rows of exactly the header's width. -/
structure Table where
  header : List String
  rows : List (List String)
deriving DecidableEq, Repr

/-- `download_sheet_as_df` (lines 148-187): empty sheet gives an empty
frame; otherwise the first row is the header and every data row is
truncated/padded to the header width. -/
def download (s : Sheet) : Table :=
  match s with
  | [] => ⟨[], []⟩
  | h :: rs => ⟨h, rs.map (normalizeRow h.length)⟩

/-- `update_sheet` (lines 227-248): overwrite the whole sheet with the
header followed by the frame's rows. -/
def updateSheet (t : Table) : Sheet :=
  t.header :: t.rows

/-- Index of the first column named `c` in a header (Python
`headers.index` / pandas column lookup), `none` when absent. -/
def colIdx (c : String) : List String → Option Nat
  | [] => none
  | h :: t => if h == c then some 0 else (colIdx c t).map (· + 1)

/-- Value of column `c` of row `r` under header `h`; missing cells read
as the empty string. -/
def cellV (h r : List String) (c : String) : String :=
  match colIdx c h with
  | some i => r.getD i ""
  | none => ""

/-- `df[c] = v` when the column may be new: add column `c` with constant
value `v` if absent, otherwise leave the frame unchanged (the guarded
assignments at lines 541-542 and 578-581). -/
def ensureCol (t : Table) (c v : String) : Table :=
  match colIdx c t.header with
  | some _ => t
  | none => ⟨t.header ++ [c], t.rows.map (fun r => r ++ [v])⟩

/-- `df[c] = v` unconditionally: overwrite the column when present,
append it otherwise (lines 590-595). -/
def setCol (t : Table) (c v : String) : Table :=
  match colIdx c t.header with
  | some i => ⟨t.header, t.rows.map (fun r => r.set i v)⟩
  | none => ⟨t.header ++ [c], t.rows.map (fun r => r ++ [v])⟩

/-- `pd.merge(tA, tB, on := key, how := inner)` for frames whose non-key
columns do not overlap (true of the two stage logs): result columns are
the left frame's columns followed by the right frame's columns minus the
key; each left row pairs with every key-matching right row, in order
(line 584). -/
def joinOn (key : String) (tA tB : Table) : Table :=
  match colIdx key tA.header, colIdx key tB.header with
  | some iA, some iB =>
    ⟨tA.header ++ tB.header.eraseIdx iB,
     tA.rows.flatMap (fun a =>
       (tB.rows.filter (fun b => a.getD iA "" == b.getD iB "")).map
         (fun b => a ++ b.eraseIdx iB))⟩
  | _, _ => ⟨[], []⟩

/-- Boolean row filter on a frame (line 585). -/
def filterTable (t : Table) (p : List String → Bool) : Table :=
  ⟨t.header, t.rows.filter p⟩

/-- `df[c].tolist()` (line 608). -/
def colValues (t : Table) (c : String) : List String :=
  t.rows.map (fun r => cellV t.header r c)

/-- Re-express row `r` of header `src` under header `dst`; columns not in
`src` read as the empty string (pandas concat alignment + `fillna` in
`update_sheet`). -/
def reindexRow (src r dst : List String) : List String :=
  dst.map (fun c => cellV src r c)

/-- `pd.concat([t1, t2], ignore_index := true)` followed by
`fillna('')`: the union of the columns (first frame's order first),
with missing cells empty (line 602). -/
def concatTables (t1 t2 : Table) : Table :=
  let h := t1.header ++ t2.header.filter (fun c => !t1.header.contains c)
  ⟨h, t1.rows.map (fun r => reindexRow t1.header r h) ++
      t2.rows.map (fun r => reindexRow t2.header r h)⟩

/-- Condition under which `update_merge_statuses` issues a cell-update
request for a raw row (lines 277-302): the row reaches the id column,
its id is among the merged ids, and its flag cell is not already the
terminal value `"1"`. -/
def umsNeeds (iId iFlag : Nat) (ids : List String) (r : List String) : Bool :=
  decide (iId < r.length) && ids.contains (r.getD iId "") &&
    !(r.getD iFlag "" == "1")

/-- Effect of `update_merge_statuses` on one raw row: when a request is
issued the flag cell is written `"1"` (cells before it materialize as
empty); otherwise the row is untouched. -/
def umsPatchRow (iId iFlag : Nat) (ids : List String) (r : List String) :
    List String :=
  if umsNeeds iId iFlag ids r then (padTo (iFlag + 1) r).set iFlag "1" else r

/-- `update_merge_statuses` (lines 250-311) as a sheet transformer: on an
empty sheet, or when either column is missing from the header (where the
Python raises before any write), the sheet is unchanged; otherwise every
qualifying row gets its flag cell set to `"1"`. -/
def updateMergeStatuses (s : Sheet) (idCol : String) (ids : List String)
    (flagCol : String) : Sheet :=
  match s with
  | [] => s
  | h :: rows =>
    match colIdx idCol h, colIdx flagCol h with
    | some iId, some iFlag => h :: rows.map (umsPatchRow iId iFlag ids)
    | _, _ => s

/-- Indices (0-based into the data rows) of the cell-update requests one
`update_merge_statuses` call issues. -/
def umsRequests (s : Sheet) (idCol : String) (ids : List String)
    (flagCol : String) : List Nat :=
  match s with
  | [] => []
  | h :: rows =>
    match colIdx idCol h, colIdx flagCol h with
    | some iId, some iFlag =>
      (List.range rows.length).filter
        (fun j => umsNeeds iId iFlag ids (rows.getD j []))
    | _, _ => []

/-- The persistent state the merge/dispatch core reads and writes: the
three stage logs. -/
structure PipelineState where
  tagSheet : Sheet
  transcribeSheet : Sheet
  mergedSheet : Sheet
deriving DecidableEq, Repr

/-- The filtered inner join a `merge_data` run computes (lines 570-585):
empty when either source frame is empty; otherwise the inner join on the
record identifier restricted to pairs whose two merge flags are both
`"0"`.  The flag columns are defaulted to `"0"` when absent. -/
def mergedBatch (st : PipelineState) : Table :=
  let dfTag := download st.tagSheet
  let dfTr := download st.transcribeSheet
  if dfTag.rows.isEmpty || dfTr.rows.isEmpty then ⟨[], []⟩
  else
    let dfTag := ensureCol dfTag MERGE_STATUS_TAG "0"
    let dfTr := ensureCol dfTr MERGE_STATUS_TRANSCRIBE "0"
    let joined := joinOn UNIQUE_ID_COLUMN dfTag dfTr
    filterTable joined (fun r =>
      cellV joined.header r MERGE_STATUS_TAG == "0" &&
      cellV joined.header r MERGE_STATUS_TRANSCRIBE == "0")

/-- The rows `merge_data` appends to the merged log: the filtered join
with both merge flags set to `"1"` and a `sent_flag` column set to `"0"`
(lines 590-595). -/
def mergedOut (st : PipelineState) : Table :=
  setCol (setCol (setCol (mergedBatch st) MERGE_STATUS_TAG "1")
      MERGE_STATUS_TRANSCRIBE "1")
    SENT_FLAG_COLUMN "0"

/-- The identifiers of the joined pairs (`unique_ids`, line 608). -/
def mergedIds (st : PipelineState) : List String :=
  colValues (mergedOut st) UNIQUE_ID_COLUMN

/-- `merge_data` (lines 568-612): when the filtered join is empty nothing
is written; otherwise the merged log is overwritten with its previous
contents plus the new rows, and both source logs have the merge flags of
the joined identifiers back-patched to `"1"`. -/
def mergeData (st : PipelineState) : PipelineState :=
  if (mergedBatch st).rows.isEmpty then st
  else
    let merged := mergedOut st
    let existing := download st.mergedSheet
    let combined :=
      if existing.rows.isEmpty then merged else concatTables existing merged
    { tagSheet :=
        updateMergeStatuses st.tagSheet UNIQUE_ID_COLUMN (mergedIds st)
          MERGE_STATUS_TAG,
      transcribeSheet :=
        updateMergeStatuses st.transcribeSheet UNIQUE_ID_COLUMN
          (mergedIds st) MERGE_STATUS_TRANSCRIBE,
      mergedSheet := updateSheet combined }

/-- `send_emails` (lines 521-566) as a function of the merged sheet and
the delivery outcome: returns the new sheet and the number of delivery
attempts.  Empty sheet, or no row with `sent_flag` `"0"`, is a no-op
with zero attempts; otherwise one batch delivery is attempted and, on
success only, every previously-unsent row's flag is set `"1"` before the
whole sheet is written back. -/
def sendEmails (s : Sheet) (emailOk : Bool) : Sheet × Nat :=
  let df := download s
  if df.rows.isEmpty then (s, 0)
  else
    let df := ensureCol df SENT_FLAG_COLUMN ""
    match colIdx SENT_FLAG_COLUMN df.header with
    | none => (s, 0)
    | some iS =>
      if (df.rows.filter (fun r => r.getD iS "" == "0")).isEmpty then (s, 0)
      else
        let newRows :=
          if emailOk then
            df.rows.map (fun r => if r.getD iS "" == "0" then r.set iS "1" else r)
          else df.rows
        (updateSheet ⟨df.header, newRows⟩, 1)

/-- A sequence of Dispatch Engine runs with the given delivery
outcomes. -/
def runDispatch (s : Sheet) (oks : List Bool) : Sheet :=
  oks.foldl (fun t ok => (sendEmails t ok).1) s

/-- The row `tag_transcripts.py` appends to the `tag_transcripts` log
(lines 869-880): ten cells, the last the literal `'No'`. -/
def tagTranscriptRow (gd_transcript_file_id datetime_tagged transcript_title
    who_recorded action_items contacts_linked companies_linked
    contacts_created companies_created : String) : List String :=
  [gd_transcript_file_id, datetime_tagged, transcript_title, who_recorded,
   action_items, contacts_linked, companies_linked, contacts_created,
   companies_created, "No"]

/-- Appending one row at the end of a sheet (`values().append` with
`INSERT_ROWS`). -/
def appendRow (s : Sheet) (r : List String) : Sheet := s ++ [r]

/-- The `tag_transcripts` log schema declared by the specification (§6):
nine data columns followed by `merge_status_tag`. -/
def tagSheetHeaderSpec : List String :=
  ["gd_transcript_file_id", "datetime_tagged", "transcript_title",
   "who_recorded", "action_items", "contacts_linked", "companies_linked",
   "contacts_created", "companies_created", "merge_status_tag"]

/-! ### List-level lemmas -/

theorem getD_append_left {l₁ l₂ : List String} {i : Nat} (h : i < l₁.length)
    (d : String) : (l₁ ++ l₂).getD i d = l₁.getD i d := by
  simp only [List.getD_eq_getElem?_getD, List.getElem?_append, if_pos h]

theorem getD_append_right (l₁ l₂ : List String) (j : Nat) (d : String) :
    (l₁ ++ l₂).getD (l₁.length + j) d = l₂.getD j d := by
  simp only [List.getD_eq_getElem?_getD, List.getElem?_append]
  rw [if_neg (by omega)]
  have hj : l₁.length + j - l₁.length = j := by omega
  rw [hj]

theorem getD_set_self {l : List String} {i : Nat} (h : i < l.length)
    (v d : String) : (l.set i v).getD i d = v := by
  simp only [List.getD_eq_getElem?_getD, List.getElem?_set_self h,
    Option.getD_some]

theorem getD_set_ne {i j : Nat} (h : i ≠ j) (l : List String)
    (v d : String) : (l.set i v).getD j d = l.getD j d := by
  simp only [List.getD_eq_getElem?_getD, List.getElem?_set_ne h]

theorem padTo_getD (n : Nat) (r : List String) (i : Nat) :
    (padTo n r).getD i "" = r.getD i "" := by
  simp only [padTo, List.getD_eq_getElem?_getD, List.getElem?_append]
  split
  · rfl
  · rename_i h
    rw [List.getElem?_replicate]
    have hr : r[i]? = none := List.getElem?_eq_none (by omega)
    split <;> simp [hr]

theorem padTo_length (n : Nat) (r : List String) :
    (padTo n r).length = max n r.length := by
  simp only [padTo, List.length_append, List.length_replicate]
  omega

theorem normalizeRow_length (n : Nat) (r : List String) :
    (normalizeRow n r).length = n := by
  simp only [normalizeRow, padTo_length, List.length_take]
  omega

theorem normalizeRow_getD {i n : Nat} (h : i < n) (r : List String) :
    (normalizeRow n r).getD i "" = r.getD i "" := by
  rw [normalizeRow, padTo_getD]
  simp only [List.getD_eq_getElem?_getD, List.getElem?_take, if_pos h]

theorem getD_eraseIdx (b : List String) (iB j : Nat) (d : String) :
    (b.eraseIdx iB).getD j d =
      if j < iB then b.getD j d else b.getD (j + 1) d := by
  induction b generalizing iB j with
  | nil => simp [List.eraseIdx]
  | cons x t ih =>
    cases iB with
    | zero => simp [List.eraseIdx]
    | succ k =>
      cases j with
      | zero => simp [List.eraseIdx]
      | succ m =>
        simp only [List.eraseIdx, List.getD_cons_succ]
        rw [ih k m]
        simp only [Nat.succ_lt_succ_iff]

theorem colIdx_lt_length {c : String} :
    ∀ {h : List String} {i : Nat}, colIdx c h = some i → i < h.length := by
  intro h
  induction h with
  | nil => intro i hc; simp [colIdx] at hc
  | cons x t ih =>
    intro i hc
    simp only [colIdx] at hc
    split at hc
    · cases hc; simp
    · cases hmm : colIdx c t with
      | none => rw [hmm] at hc; simp at hc
      | some j =>
        rw [hmm] at hc
        simp only [Option.map_some', Option.some.injEq] at hc
        have := ih hmm
        simp only [List.length_cons]
        omega

theorem colIdx_getD {c : String} :
    ∀ {h : List String} {i : Nat}, colIdx c h = some i →
      ∀ d, h.getD i d = c := by
  intro h
  induction h with
  | nil => intro i hc; simp [colIdx] at hc
  | cons x t ih =>
    intro i hc d
    simp only [colIdx] at hc
    split at hc
    · rename_i hx
      cases hc
      simpa using (eq_of_beq hx)
    · cases hmm : colIdx c t with
      | none => rw [hmm] at hc; simp at hc
      | some j =>
        rw [hmm] at hc
        simp only [Option.map_some', Option.some.injEq] at hc
        subst hc
        simpa using ih hmm d

theorem colIdx_eq_none {c : String} :
    ∀ {h : List String}, colIdx c h = none ↔ c ∉ h := by
  intro h
  induction h with
  | nil => simp [colIdx]
  | cons x t ih =>
    simp only [colIdx, List.mem_cons]
    split
    · rename_i hx
      simp only [reduceCtorEq, false_iff, not_or]
      intro hcon
      exact absurd (eq_of_beq hx) (by rintro rfl; exact hcon.1 rfl)
    · rename_i hx
      cases hmm : colIdx c t with
      | none =>
        simp only [Option.map_none', true_iff]
        intro hcon
        rcases hcon with hcon | hcon
        · exact hx (by rw [hcon]; exact beq_self_eq_true x)
        · exact (ih.mp hmm) hcon
      | some j =>
        simp only [Option.map_some', reduceCtorEq, false_iff, not_not]
        right
        by_contra hmem
        rw [ih.mpr hmem] at hmm
        cases hmm

theorem colIdx_mem {c : String} {h : List String} {i : Nat}
    (hc : colIdx c h = some i) : c ∈ h := by
  by_contra hmem
  rw [colIdx_eq_none.mpr hmem] at hc
  cases hc

theorem colIdx_append_left {c : String} {h₁ : List String} {i : Nat}
    (hc : colIdx c h₁ = some i) (h₂ : List String) :
    colIdx c (h₁ ++ h₂) = some i := by
  induction h₁ generalizing i with
  | nil => simp [colIdx] at hc
  | cons x t ih =>
    simp only [colIdx, List.cons_append, List.append_eq] at hc ⊢
    split at hc
    · rename_i hx
      rw [if_pos hx]
      exact hc
    · rename_i hx
      rw [if_neg hx]
      cases hmm : colIdx c t with
      | none => rw [hmm] at hc; simp at hc
      | some j =>
        rw [hmm] at hc
        simp only [Option.map_some', Option.some.injEq] at hc
        rw [ih hmm]
        simp [hc]

theorem colIdx_append_right {c : String} {h₁ : List String}
    (hmem : c ∉ h₁) (h₂ : List String) :
    colIdx c (h₁ ++ h₂) = (colIdx c h₂).map (· + h₁.length) := by
  induction h₁ with
  | nil => simp
  | cons x t ih =>
    simp only [List.mem_cons, not_or] at hmem
    simp only [List.cons_append, colIdx, List.append_eq]
    rw [if_neg (by simpa using fun hx => hmem.1 (eq_of_beq hx).symm)]
    rw [ih hmem.2]
    cases colIdx c h₂ with
    | none => simp
    | some j =>
      simp only [Option.map_some', Option.some.injEq, List.length_cons]
      omega

theorem colIdx_eraseIdx {c : String} :
    ∀ {h : List String} {iB : Nat}, h.getD iB "" ≠ c →
      colIdx c (h.eraseIdx iB) =
        (colIdx c h).map (fun i => if i < iB then i else i - 1) := by
  intro h
  induction h with
  | nil => intro iB _; simp [List.eraseIdx, colIdx]
  | cons x t ih =>
    intro iB hne
    cases iB with
    | zero =>
      simp only [List.getD_cons_zero] at hne
      simp only [List.eraseIdx, colIdx]
      rw [if_neg (by simpa using fun hx => hne (eq_of_beq hx))]
      cases hmm : colIdx c t with
      | none => simp
      | some j => simp
    | succ k =>
      simp only [List.getD_cons_succ] at hne
      simp only [List.eraseIdx, colIdx]
      split
      · simp
      · rw [ih hne]
        cases hmm : colIdx c t with
        | none => simp [hmm]
        | some j =>
          have hjne : j ≠ k := by
            intro hjk
            exact hne (by rw [← hjk]; exact colIdx_getD hmm "")
          simp only [hmm, Option.map_some', Option.some.injEq]
          by_cases hlt : j < k
          · have h2 : j + 1 < k + 1 := by omega
            rw [if_pos hlt, if_pos h2]
          · have h2 : ¬(j + 1 < k + 1) := by omega
            rw [if_neg hlt, if_neg h2]
            omega

/-! ### Model-level lemmas -/

theorem cellV_some {h r : List String} {c : String} {i : Nat}
    (hc : colIdx c h = some i) : cellV h r c = r.getD i "" := by
  simp [cellV, hc]

theorem cellV_none {h : List String} {c : String} (hc : c ∉ h)
    (r : List String) : cellV h r c = "" := by
  simp [cellV, colIdx_eq_none.mpr hc]

/-- Looking up a left-frame column in a joined row reads the left row. -/
theorem cellV_join_left {hT h₂ a x : List String} {c : String} {i : Nat}
    (hc : colIdx c hT = some i) (ha : a.length = hT.length) :
    cellV (hT ++ h₂) (a ++ x) c = a.getD i "" := by
  rw [cellV_some (colIdx_append_left hc h₂)]
  exact getD_append_left (ha ▸ colIdx_lt_length hc) ""

/-- Looking up a right-frame (non-key) column in a joined row reads the
right row at its original index. -/
theorem cellV_join_right {hT hTr a b : List String} {c : String}
    {i iB : Nat} (hnot : c ∉ hT) (hcB : colIdx c hTr = some i)
    (hkne : hTr.getD iB "" ≠ c) (ha : a.length = hT.length) :
    cellV (hT ++ hTr.eraseIdx iB) (a ++ b.eraseIdx iB) c = b.getD i "" := by
  have hidx : colIdx c (hT ++ hTr.eraseIdx iB) =
      some ((if i < iB then i else i - 1) + hT.length) := by
    rw [colIdx_append_right hnot, colIdx_eraseIdx hkne, hcB]
    rfl
  rw [cellV_some hidx]
  have hcomm : (if i < iB then i else i - 1) + hT.length =
      a.length + (if i < iB then i else i - 1) := by omega
  rw [hcomm, getD_append_right, getD_eraseIdx]
  have hne : i ≠ iB := fun hib => hkne (hib ▸ colIdx_getD hcB "")
  by_cases hlt : i < iB
  · rw [if_pos hlt, if_pos hlt]
  · rw [if_neg hlt, if_neg (by omega)]
    congr 1
    omega

theorem ensureCol_of_some {t : Table} {c : String} {i : Nat}
    (hc : colIdx c t.header = some i) (v : String) : ensureCol t c v = t := by
  simp [ensureCol, hc]

/-- Rows of a frame stay as wide as the header under `setCol`. -/
theorem setCol_rows_length {t : Table} (c v : String)
    (hlen : ∀ r ∈ t.rows, r.length = t.header.length) :
    ∀ r ∈ (setCol t c v).rows, r.length = (setCol t c v).header.length := by
  unfold setCol
  cases hc : colIdx c t.header with
  | some i =>
    intro r hr
    rcases List.mem_map.mp hr with ⟨r₀, hr₀, rfl⟩
    simp [List.length_set, hlen r₀ hr₀]
  | none =>
    intro r hr
    rcases List.mem_map.mp hr with ⟨r₀, hr₀, rfl⟩
    simp [hlen r₀ hr₀]

theorem setCol_rows_count (t : Table) (c v : String) :
    (setCol t c v).rows.length = t.rows.length := by
  unfold setCol
  cases colIdx c t.header <;> simp

/-- `setCol` on a different column leaves a column's values unchanged. -/
theorem colValues_setCol_ne {t : Table} {c c' : String} (hne : c ≠ c')
    (v : String) (hlen : ∀ r ∈ t.rows, r.length = t.header.length) :
    colValues (setCol t c' v) c = colValues t c := by
  unfold setCol colValues
  cases hc' : colIdx c' t.header with
  | some i =>
    simp only [List.map_map]
    refine List.map_congr_left (fun r hr => ?_)
    simp only [Function.comp_apply]
    cases hc : colIdx c t.header with
    | some j =>
      rw [cellV_some hc, cellV_some hc]
      have hij : i ≠ j := by
        intro hij
        exact hne (by rw [← colIdx_getD hc "", ← hij, colIdx_getD hc' ""])
      exact getD_set_ne hij r v ""
    | none =>
      rw [cellV_none (colIdx_eq_none.mp hc), cellV_none (colIdx_eq_none.mp hc)]
  | none =>
    simp only [List.map_map]
    refine List.map_congr_left (fun r hr => ?_)
    simp only [Function.comp_apply]
    cases hc : colIdx c t.header with
    | some j =>
      rw [cellV_some hc, cellV_some (colIdx_append_left hc [c'])]
      exact getD_append_left (by rw [hlen r hr]; exact colIdx_lt_length hc) ""
    | none =>
      have hc2 : colIdx c (t.header ++ [c']) = none := by
        rw [colIdx_append_right (colIdx_eq_none.mp hc)]
        have h0 : colIdx c [c'] = none := colIdx_eq_none.mpr (by simpa using hne)
        rw [h0]
        rfl
      rw [cellV_none (colIdx_eq_none.mp hc), cellV_none (colIdx_eq_none.mp hc2)]

/-- `setCol` writes the constant into every row of its own column. -/
theorem colValues_setCol_self (t : Table) (c v : String)
    (hlen : ∀ r ∈ t.rows, r.length = t.header.length) :
    colValues (setCol t c v) c = List.replicate t.rows.length v := by
  unfold setCol colValues
  cases hc : colIdx c t.header with
  | some i =>
    simp only [List.map_map]
    rw [List.eq_replicate_iff]
    refine ⟨by simp, fun x hx => ?_⟩
    rcases List.mem_map.mp hx with ⟨r, hr, rfl⟩
    simp only [Function.comp_apply]
    rw [cellV_some hc]
    exact getD_set_self (by rw [hlen r hr]; exact colIdx_lt_length hc) v ""
  | none =>
    simp only [List.map_map]
    rw [List.eq_replicate_iff]
    refine ⟨by simp, fun x hx => ?_⟩
    rcases List.mem_map.mp hx with ⟨r, hr, rfl⟩
    simp only [Function.comp_apply]
    have hidx : colIdx c (t.header ++ [c]) = some t.header.length := by
      rw [colIdx_append_right (colIdx_eq_none.mp hc)]
      simp [colIdx]
    rw [cellV_some hidx]
    have hlr : t.header.length = r.length + 0 := by rw [hlen r hr, Nat.add_zero]
    rw [hlr, getD_append_right]
    rfl

/-! ### Merge-engine structure -/

theorem joinOn_eq {key : String} {hA hB : List String}
    {rA rB : List (List String)} {iA iB : Nat}
    (hcA : colIdx key hA = some iA) (hcB : colIdx key hB = some iB) :
    joinOn key ⟨hA, rA⟩ ⟨hB, rB⟩ =
      ⟨hA ++ hB.eraseIdx iB,
       rA.flatMap (fun a =>
         (rB.filter (fun b => a.getD iA "" == b.getD iB "")).map
           (fun b => a ++ b.eraseIdx iB))⟩ := by
  unfold joinOn
  rw [show (⟨hA, rA⟩ : Table).header = hA from rfl,
    show (⟨hB, rB⟩ : Table).header = hB from rfl, hcA, hcB]

theorem ensureCol_comp {h : List String} {c : String} {i : Nat}
    (hc : colIdx c h = some i) (rows : List (List String)) (v : String) :
    ensureCol ⟨h, rows⟩ c v = ⟨h, rows⟩ := by
  simp [ensureCol, hc]

section MergeEngine

variable {hT hTr : List String} {rT rTr : Sheet} {iIdT iFT iIdTr iFTr : Nat}

/-- The rows a `merge_data` run joins, written out: for every tag row and
every key-matching transcribe row (both normalized to their headers),
keep the pair when both merge flags are `"0"`. -/
theorem mergedBatch_eq
    (h1 : colIdx UNIQUE_ID_COLUMN hT = some iIdT)
    (h2 : colIdx MERGE_STATUS_TAG hT = some iFT)
    (h3 : colIdx UNIQUE_ID_COLUMN hTr = some iIdTr)
    (h4 : colIdx MERGE_STATUS_TRANSCRIBE hTr = some iFTr)
    (hrT : rT ≠ []) (hrTr : rTr ≠ []) (mS : Sheet) :
    mergedBatch ⟨hT :: rT, hTr :: rTr, mS⟩ =
      ⟨hT ++ hTr.eraseIdx iIdTr,
       ((rT.map (normalizeRow hT.length)).flatMap (fun a =>
         ((rTr.map (normalizeRow hTr.length)).filter
           (fun b => a.getD iIdT "" == b.getD iIdTr "")).map
           (fun b => a ++ b.eraseIdx iIdTr))).filter
         (fun r =>
           cellV (hT ++ hTr.eraseIdx iIdTr) r MERGE_STATUS_TAG == "0" &&
           cellV (hT ++ hTr.eraseIdx iIdTr) r MERGE_STATUS_TRANSCRIBE == "0")⟩ := by
  have e1 : download (hT :: rT) = ⟨hT, rT.map (normalizeRow hT.length)⟩ := rfl
  have e2 : download (hTr :: rTr) =
      ⟨hTr, rTr.map (normalizeRow hTr.length)⟩ := rfl
  have hne1 : (rT.map (normalizeRow hT.length)).isEmpty = false := by
    rw [List.isEmpty_eq_false]
    simp [hrT]
  have hne2 : (rTr.map (normalizeRow hTr.length)).isEmpty = false := by
    rw [List.isEmpty_eq_false]
    simp [hrTr]
  simp only [mergedBatch, e1, e2, hne1, hne2, Bool.or_self,
    ensureCol_comp h2, ensureCol_comp h4, joinOn_eq h1 h3, filterTable]
  simp

/-- A non-empty filtered join needs data rows on both sides. -/
theorem mergedBatch_sides_ne_nil {mS : Sheet}
    (hne : (mergedBatch ⟨hT :: rT, hTr :: rTr, mS⟩).rows ≠ []) :
    rT ≠ [] ∧ rTr ≠ [] := by
  constructor
  · rintro rfl
    apply hne
    simp [mergedBatch, download]
  · rintro rfl
    apply hne
    simp [mergedBatch, download]

/-- Every row of the filtered join is as wide as its header. -/
theorem mergedBatch_rows_length
    (h1 : colIdx UNIQUE_ID_COLUMN hT = some iIdT)
    (h2 : colIdx MERGE_STATUS_TAG hT = some iFT)
    (h3 : colIdx UNIQUE_ID_COLUMN hTr = some iIdTr)
    (h4 : colIdx MERGE_STATUS_TRANSCRIBE hTr = some iFTr)
    (hrT : rT ≠ []) (hrTr : rTr ≠ []) (mS : Sheet) :
    ∀ r ∈ (mergedBatch ⟨hT :: rT, hTr :: rTr, mS⟩).rows,
      r.length = (mergedBatch ⟨hT :: rT, hTr :: rTr, mS⟩).header.length := by
  rw [mergedBatch_eq h1 h2 h3 h4 hrT hrTr mS]
  intro r hr
  rcases List.mem_filter.mp hr with ⟨hr, -⟩
  rcases List.mem_flatMap.mp hr with ⟨a, ha, hr⟩
  rcases List.mem_map.mp hr with ⟨b, hb, rfl⟩
  rcases List.mem_map.mp ha with ⟨a₀, -, rfl⟩
  rcases List.mem_map.mp (List.mem_filter.mp hb).1 with ⟨b₀, -, rfl⟩
  have hBlt : iIdTr < hTr.length := colIdx_lt_length h3
  simp only [List.length_append, normalizeRow_length, List.length_eraseIdx,
    normalizeRow_length, if_pos hBlt]

/-- Membership in the filtered join, decomposed to raw source rows. -/
theorem mem_mergedBatch
    (h1 : colIdx UNIQUE_ID_COLUMN hT = some iIdT)
    (h2 : colIdx MERGE_STATUS_TAG hT = some iFT)
    (h3 : colIdx UNIQUE_ID_COLUMN hTr = some iIdTr)
    (h4 : colIdx MERGE_STATUS_TRANSCRIBE hTr = some iFTr)
    (h7 : MERGE_STATUS_TRANSCRIBE ∉ hT)
    (hrT : rT ≠ []) (hrTr : rTr ≠ []) (mS : Sheet)
    {a b : List String} (ha : a ∈ rT) (hb : b ∈ rTr)
    (hkey : a.getD iIdT "" = b.getD iIdTr "")
    (hfa : a.getD iFT "" = "0") (hfb : b.getD iFTr "" = "0") :
    normalizeRow hT.length a ++ (normalizeRow hTr.length b).eraseIdx iIdTr ∈
      (mergedBatch ⟨hT :: rT, hTr :: rTr, mS⟩).rows := by
  have hiF : iFT < hT.length := colIdx_lt_length h2
  have hiI : iIdT < hT.length := colIdx_lt_length h1
  have hiFb : iFTr < hTr.length := colIdx_lt_length h4
  have hiIb : iIdTr < hTr.length := colIdx_lt_length h3
  rw [mergedBatch_eq h1 h2 h3 h4 hrT hrTr mS]
  refine List.mem_filter.mpr ⟨?_, ?_⟩
  · refine List.mem_flatMap.mpr ⟨normalizeRow hT.length a,
      List.mem_map.mpr ⟨a, ha, rfl⟩, ?_⟩
    refine List.mem_map.mpr ⟨normalizeRow hTr.length b,
      List.mem_filter.mpr ⟨List.mem_map.mpr ⟨b, hb, rfl⟩, ?_⟩, rfl⟩
    rw [normalizeRow_getD hiI, normalizeRow_getD hiIb, hkey]
    exact beq_self_eq_true _
  · have hkeyname : hTr.getD iIdTr "" ≠ MERGE_STATUS_TRANSCRIBE := by
      rw [colIdx_getD h3 ""]
      decide
    rw [cellV_join_left h2 (normalizeRow_length hT.length a),
      cellV_join_right h7 h4 hkeyname (normalizeRow_length hT.length a),
      normalizeRow_getD hiF, normalizeRow_getD hiFb, hfa, hfb]
    decide

end MergeEngine

/-! ### Back-patch (`update_merge_statuses`) facts -/

theorem ums_cons_eq {h : List String} {iId iFlag : Nat} {idCol flagCol : String}
    (hid : colIdx idCol h = some iId) (hfl : colIdx flagCol h = some iFlag)
    (rows : List (List String)) (ids : List String) :
    updateMergeStatuses (h :: rows) idCol ids flagCol =
      h :: rows.map (umsPatchRow iId iFlag ids) := by
  simp only [updateMergeStatuses]
  rw [hid, hfl]

/-- A patched row whose flag cell still reads `"0"` was not patched: its
flag already read `"0"` and its id is not among the merged ids. -/
theorem umsPatchRow_flag_zero {iId iFlag : Nat} (hlt : iId < iFlag)
    {ids : List String} {r : List String}
    (h0 : (umsPatchRow iId iFlag ids r).getD iFlag "" = "0") :
    umsPatchRow iId iFlag ids r = r ∧ r.getD iFlag "" = "0" ∧
      r.getD iId "" ∉ ids := by
  by_cases hn : umsNeeds iId iFlag ids r
  · exfalso
    rw [umsPatchRow, if_pos hn,
      getD_set_self (by rw [padTo_length]; omega) "1" ""] at h0
    exact absurd h0 (by decide)
  · have hid : umsPatchRow iId iFlag ids r = r := by
      rw [umsPatchRow, if_neg hn]
    rw [hid] at h0
    refine ⟨hid, h0, fun hmem => ?_⟩
    have hlen : iFlag < r.length := by
      by_contra hge
      rw [List.getD_eq_getElem?_getD, List.getElem?_eq_none (by omega)] at h0
      exact absurd h0 (by decide)
    apply hn
    unfold umsNeeds
    rw [h0]
    simp only [Bool.and_eq_true, decide_eq_true_eq]
    exact ⟨⟨by omega, List.elem_iff.mpr hmem⟩, by decide⟩

/-! ### `merge_data` as a state transformer -/

theorem mergeData_noop {st : PipelineState}
    (h : (mergedBatch st).rows = []) : mergeData st = st := by
  simp [mergeData, h]

theorem mergeData_eq {st : PipelineState}
    (hne : (mergedBatch st).rows ≠ []) :
    mergeData st =
      { tagSheet := updateMergeStatuses st.tagSheet UNIQUE_ID_COLUMN
          (mergedIds st) MERGE_STATUS_TAG,
        transcribeSheet := updateMergeStatuses st.transcribeSheet
          UNIQUE_ID_COLUMN (mergedIds st) MERGE_STATUS_TRANSCRIBE,
        mergedSheet := updateSheet
          (if (download st.mergedSheet).rows.isEmpty then mergedOut st
           else concatTables (download st.mergedSheet) (mergedOut st)) } := by
  have hb : (mergedBatch st).rows.isEmpty = false :=
    List.isEmpty_eq_false.mpr hne
  simp [mergeData, hb]

section MergeEngine2

variable {hT hTr : List String} {rT rTr : Sheet} {iIdT iFT iIdTr iFTr : Nat}

/-- The merged identifier list is the identifier column of the filtered
join (flag/sent-flag writes do not touch the identifier column). -/
theorem mergedIds_eq_batch
    (h1 : colIdx UNIQUE_ID_COLUMN hT = some iIdT)
    (h2 : colIdx MERGE_STATUS_TAG hT = some iFT)
    (h3 : colIdx UNIQUE_ID_COLUMN hTr = some iIdTr)
    (h4 : colIdx MERGE_STATUS_TRANSCRIBE hTr = some iFTr)
    (hrT : rT ≠ []) (hrTr : rTr ≠ []) (mS : Sheet) :
    mergedIds ⟨hT :: rT, hTr :: rTr, mS⟩ =
      (mergedBatch ⟨hT :: rT, hTr :: rTr, mS⟩).rows.map
        (fun r => cellV (mergedBatch ⟨hT :: rT, hTr :: rTr, mS⟩).header r
          UNIQUE_ID_COLUMN) := by
  have L0 := mergedBatch_rows_length h1 h2 h3 h4 hrT hrTr mS
  have L1 := setCol_rows_length MERGE_STATUS_TAG "1" L0
  have L2 := setCol_rows_length MERGE_STATUS_TRANSCRIBE "1" L1
  unfold mergedIds mergedOut
  rw [colValues_setCol_ne (by decide) "0" L2,
    colValues_setCol_ne (by decide) "1" L1,
    colValues_setCol_ne (by decide) "1" L0]
  rfl

/-- An identifier whose pair passed the unmerged filter is among the
merged ids. -/
theorem mem_mergedIds
    (h1 : colIdx UNIQUE_ID_COLUMN hT = some iIdT)
    (h2 : colIdx MERGE_STATUS_TAG hT = some iFT)
    (h3 : colIdx UNIQUE_ID_COLUMN hTr = some iIdTr)
    (h4 : colIdx MERGE_STATUS_TRANSCRIBE hTr = some iFTr)
    (h7 : MERGE_STATUS_TRANSCRIBE ∉ hT)
    (hrT : rT ≠ []) (hrTr : rTr ≠ []) (mS : Sheet)
    {a b : List String} (ha : a ∈ rT) (hb : b ∈ rTr)
    (hkey : a.getD iIdT "" = b.getD iIdTr "")
    (hfa : a.getD iFT "" = "0") (hfb : b.getD iFTr "" = "0") :
    a.getD iIdT "" ∈ mergedIds ⟨hT :: rT, hTr :: rTr, mS⟩ := by
  rw [mergedIds_eq_batch h1 h2 h3 h4 hrT hrTr mS]
  refine List.mem_map.mpr
    ⟨normalizeRow hT.length a ++ (normalizeRow hTr.length b).eraseIdx iIdTr,
     mem_mergedBatch h1 h2 h3 h4 h7 hrT hrTr mS ha hb hkey hfa hfb, ?_⟩
  have hhdr : (mergedBatch ⟨hT :: rT, hTr :: rTr, mS⟩).header =
      hT ++ hTr.eraseIdx iIdTr := by
    rw [mergedBatch_eq h1 h2 h3 h4 hrT hrTr mS]
  rw [hhdr, cellV_join_left h1 (normalizeRow_length hT.length a),
    normalizeRow_getD (colIdx_lt_length h1)]

/-- Rows-level corollary of `mergedBatch_eq`. -/
theorem mergedBatch_rows_eq
    (h1 : colIdx UNIQUE_ID_COLUMN hT = some iIdT)
    (h2 : colIdx MERGE_STATUS_TAG hT = some iFT)
    (h3 : colIdx UNIQUE_ID_COLUMN hTr = some iIdTr)
    (h4 : colIdx MERGE_STATUS_TRANSCRIBE hTr = some iFTr)
    (hrT : rT ≠ []) (hrTr : rTr ≠ []) (mS : Sheet) :
    (mergedBatch ⟨hT :: rT, hTr :: rTr, mS⟩).rows =
      ((rT.map (normalizeRow hT.length)).flatMap (fun a =>
        ((rTr.map (normalizeRow hTr.length)).filter
          (fun b => a.getD iIdT "" == b.getD iIdTr "")).map
          (fun b => a ++ b.eraseIdx iIdTr))).filter
        (fun r =>
          cellV (hT ++ hTr.eraseIdx iIdTr) r MERGE_STATUS_TAG == "0" &&
          cellV (hT ++ hTr.eraseIdx iIdTr) r MERGE_STATUS_TRANSCRIBE == "0") := by
  rw [mergedBatch_eq h1 h2 h3 h4 hrT hrTr mS]

end MergeEngine2

section ClaimOne

variable {hT hTr : List String} {rT rTr : Sheet} {iIdT iFT iIdTr iFTr : Nat}

/-- **C1.** Running the Merge Engine a second time immediately after a
completed first run (whose back-patch requires both flag columns to be
present in the source-log headers, and the identifier column to precede
the flag column as in the log schemas) joins zero pairs, and the second
run changes nothing at all — in particular log C (the merged sheet) is
unchanged. -/
theorem c1_merge_engine_idempotent
    (h1 : colIdx UNIQUE_ID_COLUMN hT = some iIdT)
    (h2 : colIdx MERGE_STATUS_TAG hT = some iFT)
    (h3 : colIdx UNIQUE_ID_COLUMN hTr = some iIdTr)
    (h4 : colIdx MERGE_STATUS_TRANSCRIBE hTr = some iFTr)
    (h5 : iIdT < iFT) (h6 : iIdTr < iFTr)
    (h7 : MERGE_STATUS_TRANSCRIBE ∉ hT) (mS : Sheet) :
    (mergedBatch (mergeData ⟨hT :: rT, hTr :: rTr, mS⟩)).rows = [] ∧
    mergeData (mergeData ⟨hT :: rT, hTr :: rTr, mS⟩) =
      mergeData ⟨hT :: rT, hTr :: rTr, mS⟩ := by
  have hmain : (mergedBatch (mergeData ⟨hT :: rT, hTr :: rTr, mS⟩)).rows = [] := by
    by_cases hbe : (mergedBatch ⟨hT :: rT, hTr :: rTr, mS⟩).rows = []
    · rw [mergeData_noop hbe]
      exact hbe
    · obtain ⟨hrT, hrTr⟩ := mergedBatch_sides_ne_nil hbe
      have hiF : iFT < hT.length := colIdx_lt_length h2
      have hiI : iIdT < hT.length := colIdx_lt_length h1
      have hiFb : iFTr < hTr.length := colIdx_lt_length h4
      have hiIb : iIdTr < hTr.length := colIdx_lt_length h3
      have hkeyname : hTr.getD iIdTr "" ≠ MERGE_STATUS_TRANSCRIBE := by
        rw [colIdx_getD h3 ""]
        decide
      rw [mergeData_eq hbe]
      rw [show (⟨hT :: rT, hTr :: rTr, mS⟩ : PipelineState).tagSheet
          = hT :: rT from rfl,
        show (⟨hT :: rT, hTr :: rTr, mS⟩ : PipelineState).transcribeSheet
          = hTr :: rTr from rfl,
        ums_cons_eq h1 h2 rT (mergedIds ⟨hT :: rT, hTr :: rTr, mS⟩),
        ums_cons_eq h3 h4 rTr (mergedIds ⟨hT :: rT, hTr :: rTr, mS⟩)]
      have hrT' : rT.map (umsPatchRow iIdT iFT
          (mergedIds ⟨hT :: rT, hTr :: rTr, mS⟩)) ≠ [] := by
        simpa using hrT
      have hrTr' : rTr.map (umsPatchRow iIdTr iFTr
          (mergedIds ⟨hT :: rT, hTr :: rTr, mS⟩)) ≠ [] := by
        simpa using hrTr
      rw [mergedBatch_rows_eq h1 h2 h3 h4 hrT' hrTr' _]
      rw [List.filter_eq_nil_iff]
      intro r hr
      rcases List.mem_flatMap.mp hr with ⟨a', ha', hr2⟩
      rcases List.mem_map.mp ha' with ⟨a₁, ha₁, rfl⟩
      rcases List.mem_map.mp ha₁ with ⟨a, ha, rfl⟩
      rcases List.mem_map.mp hr2 with ⟨b', hb', rfl⟩
      rcases List.mem_filter.mp hb' with ⟨hb'', hkeyb⟩
      rcases List.mem_map.mp hb'' with ⟨b₁, hb₁, rfl⟩
      rcases List.mem_map.mp hb₁ with ⟨b, hb, rfl⟩
      intro hcontra
      rw [Bool.and_eq_true, beq_iff_eq, beq_iff_eq] at hcontra
      obtain ⟨hfa', hfb'⟩ := hcontra
      rw [cellV_join_left h2 (normalizeRow_length _ _),
        normalizeRow_getD hiF] at hfa'
      rw [cellV_join_right h7 h4 hkeyname (normalizeRow_length _ _),
        normalizeRow_getD hiFb] at hfb'
      obtain ⟨hpa, hfa, hnida⟩ := umsPatchRow_flag_zero h5 hfa'
      obtain ⟨hpb, hfb, -⟩ := umsPatchRow_flag_zero h6 hfb'
      rw [hpa, hpb] at hkeyb
      rw [normalizeRow_getD hiI, normalizeRow_getD hiIb, beq_iff_eq] at hkeyb
      exact hnida
        (mem_mergedIds h1 h2 h3 h4 h7 hrT hrTr mS ha hb hkeyb hfa hfb)
  exact ⟨hmain, mergeData_noop hmain⟩

/-- Witness for C1 at a concrete pipeline state. -/
theorem c1_merge_engine_idempotent_witness :
    (mergedBatch (mergeData
      ⟨[["gd_transcript_file_id", "t", "merge_status_tag"],
        ["F1", "x", "0"]],
       [["gd_transcript_file_id", "merge_status_transcribe"],
        ["F1", "0"]], []⟩)).rows = [] ∧
    mergeData (mergeData
      ⟨[["gd_transcript_file_id", "t", "merge_status_tag"],
        ["F1", "x", "0"]],
       [["gd_transcript_file_id", "merge_status_transcribe"],
        ["F1", "0"]], []⟩) =
      mergeData
      ⟨[["gd_transcript_file_id", "t", "merge_status_tag"],
        ["F1", "x", "0"]],
       [["gd_transcript_file_id", "merge_status_transcribe"],
        ["F1", "0"]], []⟩ :=
  @c1_merge_engine_idempotent
    ["gd_transcript_file_id", "t", "merge_status_tag"]
    ["gd_transcript_file_id", "merge_status_transcribe"]
    [["F1", "x", "0"]] [["F1", "0"]] 0 2 0 1
    (by decide) (by decide) (by decide) (by decide) (by decide) (by decide)
    (by decide) []

end ClaimOne

/-! ### Idempotence of the back-patch -/

/-- A row just patched never needs a second request: its flag cell now
holds the terminal value. -/
theorem umsNeeds_patch (iId iFlag : Nat) (ids : List String)
    (r : List String) :
    umsNeeds iId iFlag ids (umsPatchRow iId iFlag ids r) = false := by
  by_cases hn : umsNeeds iId iFlag ids r
  · rw [umsPatchRow, if_pos hn]
    unfold umsNeeds
    rw [getD_set_self (by rw [padTo_length]; omega) "1" ""]
    simp
  · rw [umsPatchRow, if_neg hn]
    simpa using hn

theorem umsPatchRow_idem (iId iFlag : Nat) (ids : List String)
    (r : List String) :
    umsPatchRow iId iFlag ids (umsPatchRow iId iFlag ids r) =
      umsPatchRow iId iFlag ids r := by
  conv_lhs => rw [umsPatchRow]
  rw [umsNeeds_patch]
  simp

/-- **C7.** The back-patch (`update_merge_statuses`, the `set_flag`
operation) is idempotent: a second application to any sheet, identifier
list and columns leaves the sheet exactly as after the first, and the
second call issues no cell-update requests at all, because a cell already
holding the terminal value `"1"` is never rewritten. -/
theorem c7_set_flag_idempotent (s : Sheet) (idCol flagCol : String)
    (ids : List String) :
    updateMergeStatuses (updateMergeStatuses s idCol ids flagCol) idCol ids
        flagCol =
      updateMergeStatuses s idCol ids flagCol ∧
    umsRequests (updateMergeStatuses s idCol ids flagCol) idCol ids
      flagCol = [] := by
  cases s with
  | nil => exact ⟨rfl, rfl⟩
  | cons h rows =>
    cases hid : colIdx idCol h with
    | none =>
      have e : updateMergeStatuses (h :: rows) idCol ids flagCol =
          h :: rows := by
        simp only [updateMergeStatuses]
        rw [hid]
      have e2 : umsRequests (h :: rows) idCol ids flagCol = [] := by
        simp only [umsRequests]
        rw [hid]
      rw [e]
      exact ⟨e, e2⟩
    | some iId =>
      cases hfl : colIdx flagCol h with
      | none =>
        have e : updateMergeStatuses (h :: rows) idCol ids flagCol =
            h :: rows := by
          simp only [updateMergeStatuses]
          rw [hid, hfl]
        have e2 : umsRequests (h :: rows) idCol ids flagCol = [] := by
          simp only [umsRequests]
          rw [hid, hfl]
        rw [e]
        exact ⟨e, e2⟩
      | some iFlag =>
        rw [ums_cons_eq hid hfl, ums_cons_eq hid hfl]
        constructor
        · congr 1
          rw [List.map_map]
          refine List.map_congr_left (fun r _ => ?_)
          exact umsPatchRow_idem iId iFlag ids r
        · simp only [umsRequests]
          rw [hid, hfl]
          rw [List.filter_eq_nil_iff]
          intro j hj
          rw [List.mem_range, List.length_map] at hj
          rw [List.getD_eq_getElem _ _ (by simpa using hj),
            List.getElem_map]
          simp [umsNeeds_patch]

/-! ### Dispatch engine -/

theorem sendEmails_nil (ok : Bool) : sendEmails [] ok = ([], 0) := rfl

theorem sendEmails_no_rows (hS : List String) (ok : Bool) :
    sendEmails [hS] ok = ([hS], 0) := rfl

/-- `send_emails` on a sheet whose header has the `sent_flag` column. -/
theorem sendEmails_cons_some {hS : List String} {rows : Sheet} {iS : Nat}
    (h : colIdx SENT_FLAG_COLUMN hS = some iS) (hrows : rows ≠ [])
    (ok : Bool) :
    sendEmails (hS :: rows) ok =
      if ((rows.map (normalizeRow hS.length)).filter
            (fun r => r.getD iS "" == "0")).isEmpty then
        (hS :: rows, 0)
      else
        (hS ::
          (if ok then
            (rows.map (normalizeRow hS.length)).map
              (fun r => if r.getD iS "" == "0" then r.set iS "1" else r)
           else rows.map (normalizeRow hS.length)), 1) := by
  have e1 : download (hS :: rows) =
      ⟨hS, rows.map (normalizeRow hS.length)⟩ := rfl
  have hne : (rows.map (normalizeRow hS.length)).isEmpty = false := by
    rw [List.isEmpty_eq_false]
    simpa using hrows
  simp only [sendEmails, e1, hne, ensureCol_comp h, h, updateSheet]
  rw [if_neg Bool.false_ne_true]

/-- `send_emails` on a non-empty sheet lacking the `sent_flag` column is
a no-op: the freshly added column is empty, not `"0"`. -/
theorem sendEmails_cons_none {hS : List String} {rows : Sheet}
    (habs : SENT_FLAG_COLUMN ∉ hS) (ok : Bool) :
    sendEmails (hS :: rows) ok = (hS :: rows, 0) := by
  cases hrows : rows with
  | nil => rfl
  | cons r₀ rs =>
    rw [← hrows]
    have hrne : rows ≠ [] := by rw [hrows]; exact List.cons_ne_nil r₀ rs
    have e1 : download (hS :: rows) =
        ⟨hS, rows.map (normalizeRow hS.length)⟩ := rfl
    have hne : (rows.map (normalizeRow hS.length)).isEmpty = false := by
      rw [List.isEmpty_eq_false]
      simpa using hrne
    have hno : colIdx SENT_FLAG_COLUMN hS = none := colIdx_eq_none.mpr habs
    have hen : ensureCol ⟨hS, rows.map (normalizeRow hS.length)⟩
        SENT_FLAG_COLUMN "" =
        ⟨hS ++ [SENT_FLAG_COLUMN],
         (rows.map (normalizeRow hS.length)).map (fun r => r ++ [""])⟩ := by
      simp [ensureCol, hno]
    have hidx : colIdx SENT_FLAG_COLUMN (hS ++ [SENT_FLAG_COLUMN]) =
        some hS.length := by
      rw [colIdx_append_right habs]
      simp [colIdx]
    have hfil : ((rows.map (normalizeRow hS.length)).map
        (fun r => r ++ [""])).filter
          (fun r => r.getD hS.length "" == "0") = [] := by
      rw [List.filter_eq_nil_iff]
      intro x hx
      rcases List.mem_map.mp hx with ⟨r, hr, rfl⟩
      rcases List.mem_map.mp hr with ⟨r₀, -, rfl⟩
      set nr := normalizeRow hS.length r₀ with hnr
      have hg : (nr ++ [""]).getD hS.length "" = "" := by
        rw [show hS.length = nr.length from (normalizeRow_length hS.length r₀).symm]
        simpa using getD_append_right nr [""] 0 ""
      rw [hg]
      decide
    simp only [sendEmails, e1, hne, hen, hidx, hfil]
    rfl

/-- **C10.** When the merged log lacks the `sent_flag` column, the
Dispatch Engine initializes it in memory to the empty string — not `"0"`
— so no pre-existing row matches the unsent filter: the run performs zero
delivery attempts and leaves the log unchanged, and any sequence of
further runs still never sends those rows. -/
theorem c10_missing_sent_flag_treated_as_sent {hS : List String}
    {rows : Sheet} (habs : SENT_FLAG_COLUMN ∉ hS) (ok : Bool) :
    sendEmails (hS :: rows) ok = (hS :: rows, 0) ∧
    (∀ r ∈ (ensureCol (download (hS :: rows)) SENT_FLAG_COLUMN "").rows,
      cellV (ensureCol (download (hS :: rows)) SENT_FLAG_COLUMN "").header r
        SENT_FLAG_COLUMN = "") ∧
    (∀ oks : List Bool, runDispatch (hS :: rows) oks = hS :: rows) := by
  refine ⟨sendEmails_cons_none habs ok, ?_, ?_⟩
  · have e1 : download (hS :: rows) =
        ⟨hS, rows.map (normalizeRow hS.length)⟩ := rfl
    have hno : colIdx SENT_FLAG_COLUMN hS = none := colIdx_eq_none.mpr habs
    rw [e1]
    intro r hr
    have hen : ensureCol ⟨hS, rows.map (normalizeRow hS.length)⟩
        SENT_FLAG_COLUMN "" =
        ⟨hS ++ [SENT_FLAG_COLUMN],
         (rows.map (normalizeRow hS.length)).map (fun r => r ++ [""])⟩ := by
      simp [ensureCol, hno]
    rw [hen] at hr ⊢
    have hidx : colIdx SENT_FLAG_COLUMN (hS ++ [SENT_FLAG_COLUMN]) =
        some hS.length := by
      rw [colIdx_append_right habs]
      simp [colIdx]
    rcases List.mem_map.mp hr with ⟨r₁, hr₁, rfl⟩
    rcases List.mem_map.mp hr₁ with ⟨r₀, -, rfl⟩
    rw [show (⟨hS ++ [SENT_FLAG_COLUMN], ((rows.map
      (normalizeRow hS.length)).map (fun r => r ++ [""]))⟩ : Table).header
      = hS ++ [SENT_FLAG_COLUMN] from rfl]
    rw [cellV_some hidx]
    set nr := normalizeRow hS.length r₀ with hnr
    rw [show hS.length = nr.length from (normalizeRow_length hS.length r₀).symm]
    simpa using getD_append_right nr [""] 0 ""
  · intro oks
    induction oks with
    | nil => rfl
    | cons ok₀ oks ih =>
      show runDispatch (sendEmails (hS :: rows) ok₀).1 oks = hS :: rows
      rw [sendEmails_cons_none habs ok₀]
      exact ih

/-- Witness for C10 at a concrete merged sheet predating `sent_flag`:
the run is a no-op with zero attempts, the in-memory column reads `""`
on row 0, and a run sequence leaves the sheet untouched. -/
theorem c10_missing_sent_flag_treated_as_sent_witness :
    sendEmails [["gd_transcript_file_id", "transcript_title"],
        ["F1", "Old row"]] true =
      ([["gd_transcript_file_id", "transcript_title"], ["F1", "Old row"]],
       0) ∧
    cellV (ensureCol (download [["gd_transcript_file_id",
        "transcript_title"], ["F1", "Old row"]]) SENT_FLAG_COLUMN
        "").header
      ((ensureCol (download [["gd_transcript_file_id",
        "transcript_title"], ["F1", "Old row"]]) SENT_FLAG_COLUMN
        "").rows.getD 0 []) SENT_FLAG_COLUMN = "" ∧
    runDispatch [["gd_transcript_file_id", "transcript_title"],
        ["F1", "Old row"]] [true, false] =
      [["gd_transcript_file_id", "transcript_title"], ["F1", "Old row"]] :=
  ⟨(c10_missing_sent_flag_treated_as_sent (by decide) true).1,
   (c10_missing_sent_flag_treated_as_sent (by decide) true).2.1
     ((ensureCol (download [["gd_transcript_file_id",
        "transcript_title"], ["F1", "Old row"]]) SENT_FLAG_COLUMN
        "").rows.getD 0 []) (by decide),
   (c10_missing_sent_flag_treated_as_sent (by decide) true).2.2
     [true, false]⟩

/-- **C5.** With at least one unsent row, a Dispatch Engine run attempts
exactly one batch delivery; afterwards every previously-unsent row's
`sent_flag` is `"1"` precisely when delivery succeeded (all `"0"` when it
failed), and rows that were not unsent keep their flag value — no partial
subset of the batch is ever marked sent. -/
theorem c5_dispatch_all_or_nothing {hS : List String} {rows : Sheet}
    {iS : Nat} (h : colIdx SENT_FLAG_COLUMN hS = some iS)
    (hun : ∃ r ∈ rows, r.getD iS "" = "0") (ok : Bool) :
    (sendEmails (hS :: rows) ok).2 = 1 ∧
    ∀ j, j < rows.length →
      (((rows.getD j []).getD iS "" = "0" →
        ((sendEmails (hS :: rows) ok).1.getD (j + 1) []).getD iS "" =
          (if ok then "1" else "0")) ∧
       ((rows.getD j []).getD iS "" ≠ "0" →
        ((sendEmails (hS :: rows) ok).1.getD (j + 1) []).getD iS "" =
          (rows.getD j []).getD iS "")) := by
  obtain ⟨r₀, hr₀, hr₀f⟩ := hun
  have hrows : rows ≠ [] := by
    rintro rfl
    exact absurd hr₀ (List.not_mem_nil r₀)
  have hiS : iS < hS.length := colIdx_lt_length h
  have hmem : normalizeRow hS.length r₀ ∈
      (rows.map (normalizeRow hS.length)).filter
        (fun r => r.getD iS "" == "0") := by
    refine List.mem_filter.mpr ⟨List.mem_map.mpr ⟨r₀, hr₀, rfl⟩, ?_⟩
    rw [normalizeRow_getD hiS, hr₀f]
    exact beq_self_eq_true _
  have hfil : ((rows.map (normalizeRow hS.length)).filter
      (fun r => r.getD iS "" == "0")).isEmpty = false := by
    rw [List.isEmpty_eq_false]
    exact List.ne_nil_of_mem hmem
  rw [sendEmails_cons_some h hrows ok, hfil, if_neg Bool.false_ne_true]
  cases ok with
  | false =>
    rw [if_neg Bool.false_ne_true]
    have e : ∀ j (hjj : j < rows.length),
        (rows.map (normalizeRow hS.length)).getD j [] =
          normalizeRow hS.length rows[j] := by
      intro j hj
      rw [List.getD_eq_getElem _ _ (by simpa using hj), List.getElem_map]
    refine ⟨rfl, fun j hj => ⟨fun h0 => ?_, fun hne0 => ?_⟩⟩
    · rw [if_neg Bool.false_ne_true]
      rw [List.getD_eq_getElem rows [] hj] at h0
      rw [List.getD_cons_succ, e j hj, normalizeRow_getD hiS]
      exact h0
    · rw [List.getD_eq_getElem rows [] hj] at hne0 ⊢
      rw [List.getD_cons_succ, e j hj, normalizeRow_getD hiS]
  | true =>
    rw [if_pos rfl]
    have e : ∀ j (hjj : j < rows.length),
        ((rows.map (normalizeRow hS.length)).map
          (fun r => if r.getD iS "" == "0" then r.set iS "1" else r)).getD
            j [] =
          (if (normalizeRow hS.length rows[j]).getD iS "" == "0" then
            (normalizeRow hS.length rows[j]).set iS "1"
           else normalizeRow hS.length rows[j]) := by
      intro j hj
      rw [List.getD_eq_getElem _ _ (by simpa using hj), List.getElem_map,
        List.getElem_map]
    refine ⟨rfl, fun j hj => ⟨fun h0 => ?_, fun hne0 => ?_⟩⟩
    · rw [if_pos rfl]
      rw [List.getD_eq_getElem rows [] hj] at h0
      rw [List.getD_cons_succ, e j hj]
      have hc : ((normalizeRow hS.length rows[j]).getD iS "" == "0") =
          true := by
        rw [normalizeRow_getD hiS, h0]
        exact beq_self_eq_true _
      rw [hc, if_pos rfl]
      exact getD_set_self (by rw [normalizeRow_length]; omega) "1" ""
    · rw [List.getD_eq_getElem rows [] hj] at hne0 ⊢
      rw [List.getD_cons_succ, e j hj]
      have hc : ((normalizeRow hS.length rows[j]).getD iS "" == "0") =
          false := by
        rw [normalizeRow_getD hiS]
        exact beq_eq_false_iff_ne.mpr hne0
      rw [hc, if_neg Bool.false_ne_true, normalizeRow_getD hiS]

/-- Witness for C5: with one unsent row, the successful run attempts one
delivery and flips the unsent row to `"1"` while the already-sent row
keeps `"1"`; the failed run leaves the unsent row at `"0"`. -/
theorem c5_dispatch_all_or_nothing_witness :
    (sendEmails [["a", "sent_flag"], ["x", "0"], ["y", "1"]] true).2 = 1 ∧
    ((sendEmails [["a", "sent_flag"], ["x", "0"], ["y", "1"]]
        true).1.getD 1 []).getD 1 "" = "1" ∧
    ((sendEmails [["a", "sent_flag"], ["x", "0"], ["y", "1"]]
        true).1.getD 2 []).getD 1 "" = "1" ∧
    ((sendEmails [["a", "sent_flag"], ["x", "0"]] false).1.getD 1
        []).getD 1 "" = "0" :=
  ⟨(@c5_dispatch_all_or_nothing ["a", "sent_flag"]
      [["x", "0"], ["y", "1"]] 1 (by decide)
      ⟨["x", "0"], by decide⟩ true).1,
   ((@c5_dispatch_all_or_nothing ["a", "sent_flag"]
      [["x", "0"], ["y", "1"]] 1 (by decide)
      ⟨["x", "0"], by decide⟩ true).2 0 (by decide)).1 (by decide),
   ((@c5_dispatch_all_or_nothing ["a", "sent_flag"]
      [["x", "0"], ["y", "1"]] 1 (by decide)
      ⟨["x", "0"], by decide⟩ true).2 1 (by decide)).2 (by decide),
   ((@c5_dispatch_all_or_nothing ["a", "sent_flag"] [["x", "0"]] 1
      (by decide) ⟨["x", "0"], by decide⟩ false).2 0 (by decide)).1
     (by decide)⟩

/-- A dispatch run on a sheet with no unsent row (flag read through the
header, treating a missing column as blank) is exactly a no-op with zero
delivery attempts. -/
theorem sendEmails_noop {s : Sheet} (ok : Bool)
    (hno : ∀ r ∈ s.drop 1, cellV (s.headD []) r SENT_FLAG_COLUMN ≠ "0") :
    sendEmails s ok = (s, 0) := by
  cases s with
  | nil => rfl
  | cons hS rows =>
    simp only [List.drop_succ_cons, List.drop_zero, List.headD_cons] at hno
    cases hcol : colIdx SENT_FLAG_COLUMN hS with
    | none => exact sendEmails_cons_none (colIdx_eq_none.mp hcol) ok
    | some iS =>
      cases hrows : rows with
      | nil => rfl
      | cons r₀ rs =>
        rw [← hrows]
        have hrne : rows ≠ [] := by
          rw [hrows]
          exact List.cons_ne_nil r₀ rs
        have hiS : iS < hS.length := colIdx_lt_length hcol
        have hfil : ((rows.map (normalizeRow hS.length)).filter
            (fun r => r.getD iS "" == "0")).isEmpty = true := by
          rw [List.isEmpty_iff, List.filter_eq_nil_iff]
          intro x hx
          rcases List.mem_map.mp hx with ⟨r, hr, rfl⟩
          rw [normalizeRow_getD hiS]
          have := hno r hr
          rw [cellV_some hcol] at this
          simpa using this
        rw [sendEmails_cons_some hcol hrne ok, hfil, if_pos rfl]

/-- A row whose `sent_flag` already reads `"1"` keeps it through any
dispatch run, and the header is preserved. -/
theorem sendEmails_mono {s : Sheet} {iS j : Nat}
    (h : colIdx SENT_FLAG_COLUMN (s.headD []) = some iS) (ok : Bool)
    (h1 : (s.getD (j + 1) []).getD iS "" = "1") :
    (sendEmails s ok).1.headD [] = s.headD [] ∧
    ((sendEmails s ok).1.getD (j + 1) []).getD iS "" = "1" := by
  cases s with
  | nil => exact ⟨rfl, h1⟩
  | cons hS rows =>
    rw [List.headD_cons] at h
    have hiS : iS < hS.length := colIdx_lt_length h
    cases hrows : rows with
    | nil =>
      rw [← hrows]
      rw [hrows] at h1 ⊢
      exact ⟨rfl, h1⟩
    | cons r₀ rs =>
      rw [← hrows]
      have hrne : rows ≠ [] := by
        rw [hrows]
        exact List.cons_ne_nil r₀ rs
      have hj : j < rows.length ∨ rows.length ≤ j := Nat.lt_or_ge j rows.length
      rw [sendEmails_cons_some h hrne ok]
      by_cases hfil : ((rows.map (normalizeRow hS.length)).filter
          (fun r => r.getD iS "" == "0")).isEmpty = true
      · rw [hfil, if_pos rfl]
        exact ⟨rfl, h1⟩
      · rw [Bool.not_eq_true] at hfil
        rw [hfil, if_neg Bool.false_ne_true]
        rcases hj with hj | hj
        · rw [List.getD_cons_succ] at h1 ⊢
          rw [List.getD_eq_getElem rows [] hj] at h1
          refine ⟨rfl, ?_⟩
          cases ok with
          | false =>
            have e : (rows.map (normalizeRow hS.length)).getD j [] =
                normalizeRow hS.length rows[j] := by
              rw [List.getD_eq_getElem _ _ (by simpa using hj),
                List.getElem_map]
            rw [if_neg Bool.false_ne_true, e, normalizeRow_getD hiS]
            exact h1
          | true =>
            have e : ((rows.map (normalizeRow hS.length)).map
                (fun r => if r.getD iS "" == "0" then r.set iS "1" else r)).getD
                  j [] =
                (if (normalizeRow hS.length rows[j]).getD iS "" == "0" then
                  (normalizeRow hS.length rows[j]).set iS "1"
                 else normalizeRow hS.length rows[j]) := by
              rw [List.getD_eq_getElem _ _ (by simpa using hj),
                List.getElem_map, List.getElem_map]
            rw [if_pos rfl, e]
            have hc : ((normalizeRow hS.length rows[j]).getD iS "" == "0") =
                false := by
              rw [normalizeRow_getD hiS, h1]
              decide
            rw [hc, if_neg Bool.false_ne_true, normalizeRow_getD hiS]
            exact h1
        · exfalso
          rw [List.getD_cons_succ] at h1
          rw [List.getD_eq_getElem?_getD rows j [],
            List.getElem?_eq_none hj] at h1
          simp at h1

/-- **C6.** A Dispatch Engine run over a merged log with no unsent row
(or an empty log) performs zero delivery attempts and returns the log
unchanged; and across any sequence of runs a `sent_flag` that has become
`"1"` never changes again, so each merged row's flag moves from `"0"` to
`"1"` at most once. -/
theorem c6_dispatch_noop_and_send_once :
    (∀ (s : Sheet) (ok : Bool),
      (∀ r ∈ s.drop 1, cellV (s.headD []) r SENT_FLAG_COLUMN ≠ "0") →
      sendEmails s ok = (s, 0)) ∧
    (∀ (s : Sheet) (oks : List Bool) (iS j : Nat),
      colIdx SENT_FLAG_COLUMN (s.headD []) = some iS →
      (s.getD (j + 1) []).getD iS "" = "1" →
      ((runDispatch s oks).getD (j + 1) []).getD iS "" = "1") := by
  refine ⟨fun s ok hno => sendEmails_noop ok hno, fun s oks => ?_⟩
  induction oks generalizing s with
  | nil => exact fun iS j _ h1 => h1
  | cons ok₀ oks ih =>
    intro iS j hcol h1
    obtain ⟨hh, hf⟩ := sendEmails_mono hcol ok₀ h1
    exact ih (sendEmails s ok₀).1 iS j (by rw [hh]; exact hcol) hf

/-- Witness for C6: a no-unsent sheet is untouched with zero attempts,
and an already-sent flag survives a run sequence. -/
theorem c6_dispatch_noop_and_send_once_witness :
    sendEmails [["a", "sent_flag"], ["x", "1"]] true =
      ([["a", "sent_flag"], ["x", "1"]], 0) ∧
    ((runDispatch [["a", "sent_flag"], ["x", "1"]]
      [true, false, true]).getD 1 []).getD 1 "" = "1" :=
  ⟨c6_dispatch_noop_and_send_once.1 [["a", "sent_flag"], ["x", "1"]] true
    (by decide),
   c6_dispatch_noop_and_send_once.2 [["a", "sent_flag"], ["x", "1"]]
    [true, false, true] 1 0 (by decide) (by decide)⟩

/-! ### Component projections of a non-trivial merge run -/

theorem mergeData_tagSheet_eq {st : PipelineState}
    (hne : (mergedBatch st).rows ≠ []) :
    (mergeData st).tagSheet =
      updateMergeStatuses st.tagSheet UNIQUE_ID_COLUMN (mergedIds st)
        MERGE_STATUS_TAG := by
  rw [mergeData_eq hne]

theorem mergeData_transcribeSheet_eq {st : PipelineState}
    (hne : (mergedBatch st).rows ≠ []) :
    (mergeData st).transcribeSheet =
      updateMergeStatuses st.transcribeSheet UNIQUE_ID_COLUMN (mergedIds st)
        MERGE_STATUS_TRANSCRIBE := by
  rw [mergeData_eq hne]

theorem mergeData_mergedSheet_eq {st : PipelineState}
    (hne : (mergedBatch st).rows ≠ []) :
    (mergeData st).mergedSheet =
      updateSheet
        (if (download st.mergedSheet).rows.isEmpty then mergedOut st
         else concatTables (download st.mergedSheet) (mergedOut st)) := by
  rw [mergeData_eq hne]

/-! ### A freshly added column is constant -/

/-- When a column is absent from a log's header, the Merge/Dispatch
Engine's in-memory default gives every row — including any freshly
appended one — the constant `v` in that column. -/
theorem ensureCol_all_const {h : List String} {rows : Sheet} {c : String}
    (habs : c ∉ h) (v : String) :
    ∀ r ∈ (ensureCol (download (h :: rows)) c v).rows,
      cellV (ensureCol (download (h :: rows)) c v).header r c = v := by
  have e1 : download (h :: rows) = ⟨h, rows.map (normalizeRow h.length)⟩ :=
    rfl
  have hno : colIdx c h = none := colIdx_eq_none.mpr habs
  have hen : ensureCol ⟨h, rows.map (normalizeRow h.length)⟩ c v =
      ⟨h ++ [c], (rows.map (normalizeRow h.length)).map (fun r => r ++ [v])⟩ := by
    simp [ensureCol, hno]
  rw [e1, hen]
  intro r hr
  have hidx : colIdx c (h ++ [c]) = some h.length := by
    rw [colIdx_append_right habs]
    simp [colIdx]
  rcases List.mem_map.mp hr with ⟨r₁, hr₁, rfl⟩
  rcases List.mem_map.mp hr₁ with ⟨r₀, -, rfl⟩
  rw [show (⟨h ++ [c], ((rows.map (normalizeRow h.length)).map
    (fun r => r ++ [v]))⟩ : Table).header = h ++ [c] from rfl]
  rw [cellV_some hidx]
  set nr := normalizeRow h.length r₀ with hnr
  rw [show h.length = nr.length from (normalizeRow_length h.length r₀).symm]
  simpa using getD_append_right nr [v] 0 v

/-! ### Claim C2: the freshly tagged row and the unmerged filter -/

/-- The concrete state for C2: the `tag_transcripts` log with the
spec-declared schema and exactly the row the Tagging Stage appends, plus
a matching unmerged `transcribe_audio` row. -/
def c2State : PipelineState :=
  ⟨appendRow [tagSheetHeaderSpec]
     (tagTranscriptRow "F1" "2024-10-15-163816" "Title" "Kerri [1]"
       "Items" "" "" "" ""),
   [["gd_transcript_file_id", "merge_status_transcribe"], ["F1", "0"]],
   []⟩

/-- **C2, counterexample.** Under the spec's declared `tag_transcripts`
schema (whose 10th column is `merge_status_tag`), the row the Tagging
Stage appends carries the literal `'No'` — not `"0"` — in the merge-flag
column, so it fails the Merge Engine's unmerged filter: a merge run over
a fresh tagged row and a matching unmerged transcribe row joins nothing
and changes nothing. -/
theorem c2_counterexample :
    cellV tagSheetHeaderSpec
      (tagTranscriptRow "F1" "2024-10-15-163816" "Title" "Kerri [1]"
        "Items" "" "" "" "") MERGE_STATUS_TAG = "No" ∧
    (mergedBatch c2State).rows = [] ∧
    mergeData c2State = c2State := by
  refine ⟨by decide, by decide, ?_⟩
  exact mergeData_noop (by decide)

/-- **C2, amended.** As appended, a fresh tagging row carries `'No'` in
its last cell and no `"0"` merge flag.  It satisfies the unmerged filter
on the next merge run exactly in the backward-compatibility case: when
the `tag_transcripts` header lacks the `merge_status_tag` column
entirely, the Merge Engine defaults the whole in-memory column —
including the fresh row — to `"0"`, making the row eligible. -/
theorem c2_fresh_row_eligible_iff_column_absent {hS : List String}
    {rs : Sheet}
    (f1 f2 f3 f4 f5 f6 f7 f8 f9 : String)
    (habs : MERGE_STATUS_TAG ∉ hS) :
    ∀ r ∈ (ensureCol (download (appendRow (hS :: rs)
        (tagTranscriptRow f1 f2 f3 f4 f5 f6 f7 f8 f9)))
        MERGE_STATUS_TAG "0").rows,
      cellV (ensureCol (download (appendRow (hS :: rs)
        (tagTranscriptRow f1 f2 f3 f4 f5 f6 f7 f8 f9)))
        MERGE_STATUS_TAG "0").header r MERGE_STATUS_TAG = "0" := by
  have e : appendRow (hS :: rs)
      (tagTranscriptRow f1 f2 f3 f4 f5 f6 f7 f8 f9) =
      hS :: (rs ++ [tagTranscriptRow f1 f2 f3 f4 f5 f6 f7 f8 f9]) := rfl
  rw [e]
  exact ensureCol_all_const habs "0"

/-- Witness for the amended C2 at a concrete header lacking the flag
column: the freshly appended row (row 0 of the frame) reads flag `"0"`. -/
theorem c2_fresh_row_eligible_iff_column_absent_witness :
    cellV (ensureCol (download (appendRow
        ([["gd_transcript_file_id", "datetime_tagged"]] : Sheet)
        (tagTranscriptRow "F1" "d" "t" "w" "a" "" "" "" "")))
        MERGE_STATUS_TAG "0").header
      ((ensureCol (download (appendRow
        ([["gd_transcript_file_id", "datetime_tagged"]] : Sheet)
        (tagTranscriptRow "F1" "d" "t" "w" "a" "" "" "" "")))
        MERGE_STATUS_TAG "0").rows.getD 0 []) MERGE_STATUS_TAG = "0" :=
  c2_fresh_row_eligible_iff_column_absent "F1" "d" "t" "w" "a" "" "" "" ""
    (by decide)
    ((ensureCol (download (appendRow
        ([["gd_transcript_file_id", "datetime_tagged"]] : Sheet)
        (tagTranscriptRow "F1" "d" "t" "w" "a" "" "" "" "")))
        MERGE_STATUS_TAG "0").rows.getD 0 [])
    (by decide)

/-! ### Claim C3: the back-patch is by identifier, not by joined row -/

/-- The concrete state for C3: two tag rows share identifier `F1`; only
the first (flag `"0"`) can join, the second (flag `"x"`) fails the
unmerged filter. -/
def c3State : PipelineState :=
  ⟨[["gd_transcript_file_id", "merge_status_tag"],
    ["F1", "0"], ["F1", "x"]],
   [["gd_transcript_file_id", "merge_status_transcribe"], ["F1", "0"]],
   []⟩

/-- **C3, counterexample.** The merge run joins exactly one pair (the
`"x"`-flagged tag row is never joined), yet the back-patch sets BOTH tag
rows' flags to `"1"`: a row that never participated in a merge has its
flag set to `"1"` merely for sharing the identifier. -/
theorem c3_counterexample :
    (mergedBatch c3State).rows = [["F1", "0", "0"]] ∧
    (mergeData c3State).tagSheet =
      [["gd_transcript_file_id", "merge_status_tag"],
       ["F1", "1"], ["F1", "1"]] := by
  exact ⟨by decide, by decide⟩

/-- The back-patch sets the flag cell of every row that reaches the id
column, whose id is listed, and whose flag is not already `"1"`. -/
theorem ums_sets_flag {iId iFlag : Nat} {ids : List String} {rows : Sheet}
    {j : Nat} (hj : j < rows.length)
    (hreach : iId < (rows.getD j []).length)
    (hid : (rows.getD j []).getD iId "" ∈ ids)
    (hfl : (rows.getD j []).getD iFlag "" ≠ "1") :
    ((rows.map (umsPatchRow iId iFlag ids)).getD j []).getD iFlag "" =
      "1" := by
  rw [List.getD_eq_getElem rows [] hj] at hreach hid hfl
  have e : (rows.map (umsPatchRow iId iFlag ids)).getD j [] =
      umsPatchRow iId iFlag ids rows[j] := by
    rw [List.getD_eq_getElem _ _ (by simpa using hj), List.getElem_map]
  rw [e]
  have hn : umsNeeds iId iFlag ids rows[j] = true := by
    unfold umsNeeds
    simp only [Bool.and_eq_true, decide_eq_true_eq]
    refine ⟨⟨hreach, List.elem_iff.mpr hid⟩, ?_⟩
    simpa using hfl
  rw [umsPatchRow, if_pos hn,
    getD_set_self (by rw [padTo_length]; omega) "1" ""]

/-- **C3, amended.** The back-patch operates by identifier: after a merge
run that joined at least one pair, EVERY tag-log row that reaches the
identifier column, whose identifier is among the merged ids, and whose
flag is not already `"1"` — whether or not that row itself joined — ends
with flag `"1"`. -/
theorem c3_back_patch_by_identifier {hT : List String} {rT : Sheet}
    {iIdT iFT : Nat}
    (h1 : colIdx UNIQUE_ID_COLUMN hT = some iIdT)
    (h2 : colIdx MERGE_STATUS_TAG hT = some iFT)
    (trS mS : Sheet)
    (hne : (mergedBatch ⟨hT :: rT, trS, mS⟩).rows ≠ [])
    {j : Nat} (hj : j < rT.length)
    (hreach : iIdT < (rT.getD j []).length)
    (hid : (rT.getD j []).getD iIdT "" ∈ mergedIds ⟨hT :: rT, trS, mS⟩)
    (hfl : (rT.getD j []).getD iFT "" ≠ "1") :
    (((mergeData ⟨hT :: rT, trS, mS⟩).tagSheet).getD (j + 1) []).getD
      iFT "" = "1" := by
  rw [mergeData_tagSheet_eq hne,
    show (⟨hT :: rT, trS, mS⟩ : PipelineState).tagSheet = hT :: rT from rfl,
    ums_cons_eq h1 h2, List.getD_cons_succ]
  exact ums_sets_flag hj hreach hid hfl

/-- Witness for the amended C3: the never-joined `"x"` row of the C3
state ends with flag `"1"`. -/
theorem c3_back_patch_by_identifier_witness :
    (((mergeData c3State).tagSheet).getD 2 []).getD 1 "" = "1" :=
  @c3_back_patch_by_identifier
    ["gd_transcript_file_id", "merge_status_tag"]
    [["F1", "0"], ["F1", "x"]] 0 1 (by decide) (by decide)
    [["gd_transcript_file_id", "merge_status_transcribe"], ["F1", "0"]] []
    (by decide) 1 (by decide) (by decide) (by decide) (by decide)

/-! ### Claim C4: missing flag values -/

/-- The concrete state for C4: the transcribe row is shorter than its
header, so its flag cell is read as the empty string. -/
def c4State : PipelineState :=
  ⟨[["gd_transcript_file_id", "merge_status_tag"], ["F1", "0"]],
   [["gd_transcript_file_id", "merge_status_transcribe"], ["F1"]],
   []⟩

/-- **C4, counterexample.** A physical row shorter than the header is
padded with the empty string, not `"0"`: its flag cell reads `""`, it
fails the unmerged filter, and the merge run joins nothing — the short
row is NOT treated as unmerged. -/
theorem c4_counterexample :
    (download c4State.transcribeSheet).rows = [["F1", ""]] ∧
    (mergedBatch c4State).rows = [] ∧
    mergeData c4State = c4State := by
  refine ⟨by decide, by decide, ?_⟩
  exact mergeData_noop (by decide)

/-- **C4, amended.** Only the column-absent half of the claim holds: when
the flag column is missing from the header, every row is defaulted to
`"0"` (eligible); but a row shorter than the header has its flag cell
padded to the empty string, which does not pass the `== "0"` filter. -/
theorem c4_missing_flag_amended :
    (∀ (hTr : List String) (rs : Sheet),
      MERGE_STATUS_TRANSCRIBE ∉ hTr →
      ∀ r ∈ (ensureCol (download (hTr :: rs))
          MERGE_STATUS_TRANSCRIBE "0").rows,
        cellV (ensureCol (download (hTr :: rs))
          MERGE_STATUS_TRANSCRIBE "0").header r MERGE_STATUS_TRANSCRIBE =
          "0") ∧
    (∀ (hTr : List String) (r : List String) (iF : Nat),
      colIdx MERGE_STATUS_TRANSCRIBE hTr = some iF →
      r.length ≤ iF →
      cellV hTr (normalizeRow hTr.length r) MERGE_STATUS_TRANSCRIBE = "") := by
  constructor
  · intro hTr rs habs
    exact ensureCol_all_const habs "0"
  · intro hTr r iF hcol hlen
    rw [cellV_some hcol, normalizeRow_getD (colIdx_lt_length hcol)]
    rw [List.getD_eq_getElem?_getD, List.getElem?_eq_none hlen]
    rfl

/-- Witness for the amended C4 at concrete logs: the defaulted column
reads `"0"` on row 0, and a short row's flag cell reads `""`. -/
theorem c4_missing_flag_amended_witness :
    cellV (ensureCol (download
        ([["gd_transcript_file_id"], ["F1"]] : Sheet))
        MERGE_STATUS_TRANSCRIBE "0").header
      ((ensureCol (download
        ([["gd_transcript_file_id"], ["F1"]] : Sheet))
        MERGE_STATUS_TRANSCRIBE "0").rows.getD 0 [])
      MERGE_STATUS_TRANSCRIBE = "0" ∧
    cellV ["gd_transcript_file_id", "merge_status_transcribe"]
      (normalizeRow 2 ["F1"]) MERGE_STATUS_TRANSCRIBE = "" :=
  ⟨c4_missing_flag_amended.1 ["gd_transcript_file_id"] [["F1"]]
    (by decide)
    ((ensureCol (download
        ([["gd_transcript_file_id"], ["F1"]] : Sheet))
        MERGE_STATUS_TRANSCRIBE "0").rows.getD 0 [])
    (by decide),
   c4_missing_flag_amended.2 ["gd_transcript_file_id",
      "merge_status_transcribe"] ["F1"] 1 (by decide) (by decide)⟩

/-! ### Concatenation with equal headers -/

theorem colIdx_getElem_of_nodup :
    ∀ {h : List String}, h.Nodup → ∀ {k : Nat} (hk : k < h.length),
      colIdx h[k] h = some k := by
  intro h
  induction h with
  | nil => intro _ k hk; simp at hk
  | cons x t ih =>
    intro hnd k hk
    rcases List.nodup_cons.mp hnd with ⟨hx, hnt⟩
    cases k with
    | zero => simp [colIdx]
    | succ m =>
      have hm : m < t.length := by simpa using hk
      rw [show (x :: t)[m + 1] = t[m] from rfl]
      simp only [colIdx]
      rw [if_neg (by
        intro hxx
        exact hx (by rw [eq_of_beq hxx]; exact List.getElem_mem hm))]
      rw [ih hnt hm]
      rfl

/-- Re-expressing a full-width row under its own duplicate-free header is
the identity. -/
theorem reindexRow_self {h r : List String} (hnd : h.Nodup)
    (hlen : r.length = h.length) : reindexRow h r h = r := by
  unfold reindexRow
  apply List.ext_getElem
  · simp [hlen]
  · intro n h1 h2
    have hn : n < h.length := by simpa using h1
    rw [List.getElem_map, cellV_some (colIdx_getElem_of_nodup hnd hn)]
    exact List.getD_eq_getElem r "" h2

/-- Concatenating two frames with the same (duplicate-free) header just
appends the rows. -/
theorem concatTables_same_header {t1 t2 : Table} (hh : t2.header = t1.header)
    (hnd : t1.header.Nodup)
    (hl1 : ∀ r ∈ t1.rows, r.length = t1.header.length)
    (hl2 : ∀ r ∈ t2.rows, r.length = t2.header.length) :
    concatTables t1 t2 = ⟨t1.header, t1.rows ++ t2.rows⟩ := by
  have hfil : t2.header.filter (fun c => !t1.header.contains c) = [] := by
    rw [List.filter_eq_nil_iff]
    intro c hc
    rw [hh] at hc
    have hcc : t1.header.contains c = true := List.elem_iff.mpr hc
    rw [hcc]
    decide
  have e1 : t1.rows.map
      (fun r => reindexRow t1.header r t1.header) = t1.rows := by
    rw [List.map_congr_left (fun r hr => reindexRow_self hnd (hl1 r hr))]
    exact List.map_id t1.rows
  have e2 : t2.rows.map
      (fun r => reindexRow t2.header r t1.header) = t2.rows := by
    have hpt : ∀ r ∈ t2.rows, reindexRow t2.header r t1.header = r := by
      intro r hr
      rw [hh]
      exact reindexRow_self hnd (by rw [hl2 r hr, hh])
    rw [List.map_congr_left hpt]
    exact List.map_id t2.rows
  simp only [concatTables, hfil, List.append_nil, e1, e2]

/-! ### The appended batch: widths and flag columns -/

section MergedOutFacts

variable {hT hTr : List String} {rT rTr : Sheet} {iIdT iFT iIdTr iFTr : Nat}

theorem mergedOut_rows_length
    (h1 : colIdx UNIQUE_ID_COLUMN hT = some iIdT)
    (h2 : colIdx MERGE_STATUS_TAG hT = some iFT)
    (h3 : colIdx UNIQUE_ID_COLUMN hTr = some iIdTr)
    (h4 : colIdx MERGE_STATUS_TRANSCRIBE hTr = some iFTr)
    (hrT : rT ≠ []) (hrTr : rTr ≠ []) (mS : Sheet) :
    ∀ r ∈ (mergedOut ⟨hT :: rT, hTr :: rTr, mS⟩).rows,
      r.length = (mergedOut ⟨hT :: rT, hTr :: rTr, mS⟩).header.length := by
  unfold mergedOut
  exact setCol_rows_length _ _ (setCol_rows_length _ _
    (setCol_rows_length _ _ (mergedBatch_rows_length h1 h2 h3 h4 hrT hrTr mS)))

theorem mergedOut_rows_count (st : PipelineState) :
    (mergedOut st).rows.length = (mergedBatch st).rows.length := by
  unfold mergedOut
  rw [setCol_rows_count, setCol_rows_count, setCol_rows_count]

theorem mergedOut_tag_flags
    (h1 : colIdx UNIQUE_ID_COLUMN hT = some iIdT)
    (h2 : colIdx MERGE_STATUS_TAG hT = some iFT)
    (h3 : colIdx UNIQUE_ID_COLUMN hTr = some iIdTr)
    (h4 : colIdx MERGE_STATUS_TRANSCRIBE hTr = some iFTr)
    (hrT : rT ≠ []) (hrTr : rTr ≠ []) (mS : Sheet) :
    colValues (mergedOut ⟨hT :: rT, hTr :: rTr, mS⟩) MERGE_STATUS_TAG =
      List.replicate (mergedOut ⟨hT :: rT, hTr :: rTr, mS⟩).rows.length
        "1" := by
  have L0 := mergedBatch_rows_length h1 h2 h3 h4 hrT hrTr mS
  have L1 := setCol_rows_length MERGE_STATUS_TAG "1" L0
  rw [mergedOut_rows_count]
  unfold mergedOut
  rw [colValues_setCol_ne (by decide) "0" (setCol_rows_length _ _ L1),
    colValues_setCol_ne (by decide) "1" L1,
    colValues_setCol_self _ _ _ L0]

theorem mergedOut_transcribe_flags
    (h1 : colIdx UNIQUE_ID_COLUMN hT = some iIdT)
    (h2 : colIdx MERGE_STATUS_TAG hT = some iFT)
    (h3 : colIdx UNIQUE_ID_COLUMN hTr = some iIdTr)
    (h4 : colIdx MERGE_STATUS_TRANSCRIBE hTr = some iFTr)
    (hrT : rT ≠ []) (hrTr : rTr ≠ []) (mS : Sheet) :
    colValues (mergedOut ⟨hT :: rT, hTr :: rTr, mS⟩)
        MERGE_STATUS_TRANSCRIBE =
      List.replicate (mergedOut ⟨hT :: rT, hTr :: rTr, mS⟩).rows.length
        "1" := by
  have L0 := mergedBatch_rows_length h1 h2 h3 h4 hrT hrTr mS
  have L1 := setCol_rows_length MERGE_STATUS_TAG "1" L0
  rw [mergedOut_rows_count, ← setCol_rows_count
    (mergedBatch ⟨hT :: rT, hTr :: rTr, mS⟩) MERGE_STATUS_TAG "1"]
  unfold mergedOut
  rw [colValues_setCol_ne (by decide) "0" (setCol_rows_length _ _ L1),
    colValues_setCol_self _ _ _ L1]

theorem mergedOut_sent_flags
    (h1 : colIdx UNIQUE_ID_COLUMN hT = some iIdT)
    (h2 : colIdx MERGE_STATUS_TAG hT = some iFT)
    (h3 : colIdx UNIQUE_ID_COLUMN hTr = some iIdTr)
    (h4 : colIdx MERGE_STATUS_TRANSCRIBE hTr = some iFTr)
    (hrT : rT ≠ []) (hrTr : rTr ≠ []) (mS : Sheet) :
    colValues (mergedOut ⟨hT :: rT, hTr :: rTr, mS⟩) SENT_FLAG_COLUMN =
      List.replicate (mergedOut ⟨hT :: rT, hTr :: rTr, mS⟩).rows.length
        "0" := by
  have L0 := mergedBatch_rows_length h1 h2 h3 h4 hrT hrTr mS
  have L1 := setCol_rows_length MERGE_STATUS_TAG "1" L0
  have L2 := setCol_rows_length MERGE_STATUS_TRANSCRIBE "1" L1
  rw [mergedOut_rows_count, ← setCol_rows_count
    (mergedBatch ⟨hT :: rT, hTr :: rTr, mS⟩) MERGE_STATUS_TAG "1",
    ← setCol_rows_count
    (setCol (mergedBatch ⟨hT :: rT, hTr :: rTr, mS⟩) MERGE_STATUS_TAG "1")
    MERGE_STATUS_TRANSCRIBE "1"]
  unfold mergedOut
  rw [colValues_setCol_self _ _ _ L2]

end MergedOutFacts

section ClaimNine

variable {hT hTr hC : List String} {rT rTr rC : Sheet}
variable {iIdT iFT iIdTr iFTr : Nat}

/-- **C9.** A merge run with a non-empty join never removes or alters a
pre-existing merged-log row: the new log is the old header, the old rows
(normalized to the header width, which changes no cell value when no row
exceeds the header), then the freshly joined rows — each new row carrying
both merge flags `"1"` and `sent_flag` `"0"` — written as one whole-log
overwrite. -/
theorem c9_merged_log_append_only
    (h1 : colIdx UNIQUE_ID_COLUMN hT = some iIdT)
    (h2 : colIdx MERGE_STATUS_TAG hT = some iFT)
    (h3 : colIdx UNIQUE_ID_COLUMN hTr = some iIdTr)
    (h4 : colIdx MERGE_STATUS_TRANSCRIBE hTr = some iFTr)
    (hne : (mergedBatch ⟨hT :: rT, hTr :: rTr, hC :: rC⟩).rows ≠ [])
    (hrC : rC ≠ [])
    (hhC : hC = (mergedOut ⟨hT :: rT, hTr :: rTr, hC :: rC⟩).header)
    (hnd : hC.Nodup)
    (hwide : ∀ r ∈ rC, r.length ≤ hC.length) :
    (mergeData ⟨hT :: rT, hTr :: rTr, hC :: rC⟩).mergedSheet =
      hC :: (rC.map (normalizeRow hC.length) ++
        (mergedOut ⟨hT :: rT, hTr :: rTr, hC :: rC⟩).rows) ∧
    (∀ j k, j < rC.length →
      ((rC.map (normalizeRow hC.length)).getD j []).getD k "" =
        (rC.getD j []).getD k "") ∧
    colValues (mergedOut ⟨hT :: rT, hTr :: rTr, hC :: rC⟩)
        MERGE_STATUS_TAG =
      List.replicate
        (mergedOut ⟨hT :: rT, hTr :: rTr, hC :: rC⟩).rows.length "1" ∧
    colValues (mergedOut ⟨hT :: rT, hTr :: rTr, hC :: rC⟩)
        MERGE_STATUS_TRANSCRIBE =
      List.replicate
        (mergedOut ⟨hT :: rT, hTr :: rTr, hC :: rC⟩).rows.length "1" ∧
    colValues (mergedOut ⟨hT :: rT, hTr :: rTr, hC :: rC⟩)
        SENT_FLAG_COLUMN =
      List.replicate
        (mergedOut ⟨hT :: rT, hTr :: rTr, hC :: rC⟩).rows.length "0" := by
  obtain ⟨hrT, hrTr⟩ := mergedBatch_sides_ne_nil hne
  refine ⟨?_, ?_, mergedOut_tag_flags h1 h2 h3 h4 hrT hrTr _,
    mergedOut_transcribe_flags h1 h2 h3 h4 hrT hrTr _,
    mergedOut_sent_flags h1 h2 h3 h4 hrT hrTr _⟩
  · rw [mergeData_mergedSheet_eq hne,
      show (⟨hT :: rT, hTr :: rTr, hC :: rC⟩ :
        PipelineState).mergedSheet = hC :: rC from rfl]
    have e1 : download (hC :: rC) =
        ⟨hC, rC.map (normalizeRow hC.length)⟩ := rfl
    have hemp : (rC.map (normalizeRow hC.length)).isEmpty = false := by
      rw [List.isEmpty_eq_false]
      simpa using hrC
    rw [e1, show (⟨hC, rC.map (normalizeRow hC.length)⟩ : Table).rows =
      rC.map (normalizeRow hC.length) from rfl, hemp,
      if_neg Bool.false_ne_true]
    rw [concatTables_same_header hhC.symm hnd
      (by
        intro r hr
        rcases List.mem_map.mp hr with ⟨r₀, -, rfl⟩
        exact normalizeRow_length hC.length r₀)
      (mergedOut_rows_length h1 h2 h3 h4 hrT hrTr (hC :: rC))]
    rfl
  · intro j k hj
    have e : (rC.map (normalizeRow hC.length)).getD j [] =
        normalizeRow hC.length rC[j] := by
      rw [List.getD_eq_getElem _ _ (by simpa using hj), List.getElem_map]
    rw [e, List.getD_eq_getElem rC [] hj, normalizeRow,
      List.take_of_length_le (hwide rC[j] (List.getElem_mem hj)),
      padTo_getD]

/-- Witness for C9 on a concrete state with one pre-existing merged row
and one joinable pair. -/
theorem c9_merged_log_append_only_witness :
    (mergeData ⟨[["gd_transcript_file_id", "merge_status_tag"],
        ["F1", "0"]],
      [["gd_transcript_file_id", "merge_status_transcribe"], ["F1", "0"]],
      [["gd_transcript_file_id", "merge_status_tag",
        "merge_status_transcribe", "sent_flag"],
       ["F0", "1", "1", "1"]]⟩).mergedSheet =
      ["gd_transcript_file_id", "merge_status_tag",
        "merge_status_transcribe", "sent_flag"] ::
      ([["F0", "1", "1", "1"]].map (normalizeRow 4) ++
        (mergedOut ⟨[["gd_transcript_file_id", "merge_status_tag"],
          ["F1", "0"]],
        [["gd_transcript_file_id", "merge_status_transcribe"],
          ["F1", "0"]],
        [["gd_transcript_file_id", "merge_status_tag",
          "merge_status_transcribe", "sent_flag"],
         ["F0", "1", "1", "1"]]⟩).rows) ∧
    ((([["F0", "1", "1", "1"]] : Sheet).map
        (normalizeRow 4)).getD 0 []).getD 2 "" =
        (([["F0", "1", "1", "1"]] : Sheet).getD 0 []).getD 2 "" ∧
    colValues (mergedOut ⟨[["gd_transcript_file_id", "merge_status_tag"],
        ["F1", "0"]],
      [["gd_transcript_file_id", "merge_status_transcribe"], ["F1", "0"]],
      [["gd_transcript_file_id", "merge_status_tag",
        "merge_status_transcribe", "sent_flag"],
       ["F0", "1", "1", "1"]]⟩) MERGE_STATUS_TAG =
      List.replicate (mergedOut ⟨[["gd_transcript_file_id",
        "merge_status_tag"], ["F1", "0"]],
      [["gd_transcript_file_id", "merge_status_transcribe"], ["F1", "0"]],
      [["gd_transcript_file_id", "merge_status_tag",
        "merge_status_transcribe", "sent_flag"],
       ["F0", "1", "1", "1"]]⟩).rows.length "1" ∧
    colValues (mergedOut ⟨[["gd_transcript_file_id", "merge_status_tag"],
        ["F1", "0"]],
      [["gd_transcript_file_id", "merge_status_transcribe"], ["F1", "0"]],
      [["gd_transcript_file_id", "merge_status_tag",
        "merge_status_transcribe", "sent_flag"],
       ["F0", "1", "1", "1"]]⟩) MERGE_STATUS_TRANSCRIBE =
      List.replicate (mergedOut ⟨[["gd_transcript_file_id",
        "merge_status_tag"], ["F1", "0"]],
      [["gd_transcript_file_id", "merge_status_transcribe"], ["F1", "0"]],
      [["gd_transcript_file_id", "merge_status_tag",
        "merge_status_transcribe", "sent_flag"],
       ["F0", "1", "1", "1"]]⟩).rows.length "1" ∧
    colValues (mergedOut ⟨[["gd_transcript_file_id", "merge_status_tag"],
        ["F1", "0"]],
      [["gd_transcript_file_id", "merge_status_transcribe"], ["F1", "0"]],
      [["gd_transcript_file_id", "merge_status_tag",
        "merge_status_transcribe", "sent_flag"],
       ["F0", "1", "1", "1"]]⟩) SENT_FLAG_COLUMN =
      List.replicate (mergedOut ⟨[["gd_transcript_file_id",
        "merge_status_tag"], ["F1", "0"]],
      [["gd_transcript_file_id", "merge_status_transcribe"], ["F1", "0"]],
      [["gd_transcript_file_id", "merge_status_tag",
        "merge_status_transcribe", "sent_flag"],
       ["F0", "1", "1", "1"]]⟩).rows.length "0" :=
  ⟨(@c9_merged_log_append_only
    ["gd_transcript_file_id", "merge_status_tag"]
    ["gd_transcript_file_id", "merge_status_transcribe"]
    ["gd_transcript_file_id", "merge_status_tag",
      "merge_status_transcribe", "sent_flag"]
    [["F1", "0"]] [["F1", "0"]] [["F0", "1", "1", "1"]] 0 1 0 1
    (by decide) (by decide) (by decide) (by decide) (by decide)
    (by decide) (by decide) (by decide) (by decide)).1,
   (@c9_merged_log_append_only
    ["gd_transcript_file_id", "merge_status_tag"]
    ["gd_transcript_file_id", "merge_status_transcribe"]
    ["gd_transcript_file_id", "merge_status_tag",
      "merge_status_transcribe", "sent_flag"]
    [["F1", "0"]] [["F1", "0"]] [["F0", "1", "1", "1"]] 0 1 0 1
    (by decide) (by decide) (by decide) (by decide) (by decide)
    (by decide) (by decide) (by decide) (by decide)).2.1 0 2 (by decide),
   (@c9_merged_log_append_only
    ["gd_transcript_file_id", "merge_status_tag"]
    ["gd_transcript_file_id", "merge_status_transcribe"]
    ["gd_transcript_file_id", "merge_status_tag",
      "merge_status_transcribe", "sent_flag"]
    [["F1", "0"]] [["F1", "0"]] [["F0", "1", "1", "1"]] 0 1 0 1
    (by decide) (by decide) (by decide) (by decide) (by decide)
    (by decide) (by decide) (by decide) (by decide)).2.2⟩

end ClaimNine

/-! ### Counting joined pairs -/

theorem sum_map_ite_const {α : Type} (p : α → Bool) (K : Nat)
    (l : List α) :
    (l.map (fun a => if p a then K else 0)).sum = l.countP p * K := by
  induction l with
  | nil => simp
  | cons x t ih =>
    simp only [List.map_cons, List.sum_cons, ih, List.countP_cons]
    by_cases hp : p x = true
    · rw [if_pos hp, if_pos hp]
      ring
    · rw [if_neg hp, if_neg hp]
      ring

theorem lt_length_of_getD_ne {r : List String} {k : Nat}
    (h : r.getD k "" ≠ "") : k < r.length := by
  by_contra hge
  rw [List.getD_eq_getElem?_getD, List.getElem?_eq_none (by omega)] at h
  exact h rfl

theorem exists_of_countP_pos {α : Type} {p : α → Bool} {l : List α}
    (h : 0 < l.countP p) : ∃ x ∈ l, p x = true := by
  by_contra hcon
  push_neg at hcon
  have h0 : l.countP p = 0 :=
    List.countP_eq_zero.mpr (fun a ha => by simp [hcon a ha])
  omega

section ClaimEight

variable {hT hTr : List String} {rT rTr : Sheet} {iIdT iFT iIdTr iFTr : Nat}

/-- The number of joined pairs carrying identifier `i` is the product of
the unmerged-row counts for `i` on the two sides. -/
theorem mergedIds_count
    (h1 : colIdx UNIQUE_ID_COLUMN hT = some iIdT)
    (h2 : colIdx MERGE_STATUS_TAG hT = some iFT)
    (h3 : colIdx UNIQUE_ID_COLUMN hTr = some iIdTr)
    (h4 : colIdx MERGE_STATUS_TRANSCRIBE hTr = some iFTr)
    (h7 : MERGE_STATUS_TRANSCRIBE ∉ hT)
    (hrT : rT ≠ []) (hrTr : rTr ≠ []) (mS : Sheet) (i : String) :
    (mergedIds ⟨hT :: rT, hTr :: rTr, mS⟩).count i =
      rT.countP (fun r => r.getD iIdT "" == i && r.getD iFT "" == "0") *
      rTr.countP
        (fun r => r.getD iIdTr "" == i && r.getD iFTr "" == "0") := by
  have hiF : iFT < hT.length := colIdx_lt_length h2
  have hiI : iIdT < hT.length := colIdx_lt_length h1
  have hiFb : iFTr < hTr.length := colIdx_lt_length h4
  have hiIb : iIdTr < hTr.length := colIdx_lt_length h3
  have hkeyname : hTr.getD iIdTr "" ≠ MERGE_STATUS_TRANSCRIBE := by
    rw [colIdx_getD h3 ""]
    decide
  have hhdr : (mergedBatch ⟨hT :: rT, hTr :: rTr, mS⟩).header =
      hT ++ hTr.eraseIdx iIdTr := by
    rw [mergedBatch_eq h1 h2 h3 h4 hrT hrTr mS]
  rw [mergedIds_eq_batch h1 h2 h3 h4 hrT hrTr mS, List.count_eq_countP,
    List.countP_map, hhdr, mergedBatch_rows_eq h1 h2 h3 h4 hrT hrTr mS,
    List.countP_filter, List.countP_flatMap, List.map_map]
  refine Eq.trans (congrArg List.sum (List.map_congr_left ?_))
    (sum_map_ite_const
      (fun r => r.getD iIdT "" == i && r.getD iFT "" == "0")
      (rTr.countP
        (fun r => r.getD iIdTr "" == i && r.getD iFTr "" == "0")) rT)
  intro a ha
  simp only [Function.comp_apply]
  rw [List.countP_map, List.countP_filter, List.countP_map]
  by_cases hba : (a.getD iIdT "" == i && a.getD iFT "" == "0") = true
  · rw [if_pos hba]
    have hba' : a.getD iIdT "" = i ∧ a.getD iFT "" = "0" := by
      simpa [Bool.and_eq_true, beq_iff_eq] using hba
    obtain ⟨hkey, hfl⟩ := hba'
    apply List.countP_congr
    intro b hb
    simp only [Function.comp_apply]
    rw [cellV_join_left h1 (normalizeRow_length hT.length a),
      cellV_join_left h2 (normalizeRow_length hT.length a),
      cellV_join_right h7 h4 hkeyname (normalizeRow_length hT.length a),
      normalizeRow_getD hiI, normalizeRow_getD hiF,
      normalizeRow_getD hiFb, normalizeRow_getD hiIb, hkey, hfl]
    simp only [Bool.and_eq_true, beq_iff_eq]
    constructor
    · rintro ⟨⟨-, -, hb0⟩, hbk⟩
      exact ⟨hbk.symm, hb0⟩
    · rintro ⟨hbk, hb0⟩
      exact ⟨⟨trivial, trivial, hb0⟩, hbk.symm⟩
  · rw [if_neg hba]
    rw [List.countP_eq_zero]
    intro b hb
    simp only [Function.comp_apply]
    rw [cellV_join_left h1 (normalizeRow_length hT.length a),
      cellV_join_left h2 (normalizeRow_length hT.length a),
      cellV_join_right h7 h4 hkeyname (normalizeRow_length hT.length a),
      normalizeRow_getD hiI, normalizeRow_getD hiF,
      normalizeRow_getD hiFb, normalizeRow_getD hiIb]
    simp only [Bool.and_eq_true, beq_iff_eq]
    rintro ⟨⟨hik, hf0, -⟩, -⟩
    exact hba (by
      simp only [Bool.and_eq_true, beq_iff_eq]
      exact ⟨hik, hf0⟩)

/-- **C8.** With exactly one unmerged A-row (transcribe) and `n ≥ 1`
unmerged B-rows (tag) for one identifier, a merge run joins all `n`
combinations: the appended batch holds exactly `n` rows for that
identifier, all with `sent_flag` `"0"`; the merged log grows by exactly
the batch; and every unmerged row for that identifier in both source
logs ends with flag `"1"`. -/
theorem c8_repeat_tagging_joins_all_pairs
    (h1 : colIdx UNIQUE_ID_COLUMN hT = some iIdT)
    (h2 : colIdx MERGE_STATUS_TAG hT = some iFT)
    (h3 : colIdx UNIQUE_ID_COLUMN hTr = some iIdTr)
    (h4 : colIdx MERGE_STATUS_TRANSCRIBE hTr = some iFTr)
    (h5 : iIdT < iFT) (h6 : iIdTr < iFTr)
    (h7 : MERGE_STATUS_TRANSCRIBE ∉ hT) (mS : Sheet)
    {i : String} {n : Nat}
    (hB : rT.countP
      (fun r => r.getD iIdT "" == i && r.getD iFT "" == "0") = n)
    (hA : rTr.countP
      (fun r => r.getD iIdTr "" == i && r.getD iFTr "" == "0") = 1)
    (hn : 1 ≤ n) :
    (mergedIds ⟨hT :: rT, hTr :: rTr, mS⟩).count i = n ∧
    (mergeData ⟨hT :: rT, hTr :: rTr, mS⟩).mergedSheet.length =
      1 + (download mS).rows.length +
        (mergedOut ⟨hT :: rT, hTr :: rTr, mS⟩).rows.length ∧
    colValues (mergedOut ⟨hT :: rT, hTr :: rTr, mS⟩) SENT_FLAG_COLUMN =
      List.replicate
        (mergedOut ⟨hT :: rT, hTr :: rTr, mS⟩).rows.length "0" ∧
    (∀ j, j < rT.length → (rT.getD j []).getD iIdT "" = i →
      (rT.getD j []).getD iFT "" = "0" →
      (((mergeData ⟨hT :: rT, hTr :: rTr, mS⟩).tagSheet).getD
        (j + 1) []).getD iFT "" = "1") ∧
    (∀ j, j < rTr.length → (rTr.getD j []).getD iIdTr "" = i →
      (rTr.getD j []).getD iFTr "" = "0" →
      (((mergeData ⟨hT :: rT, hTr :: rTr, mS⟩).transcribeSheet).getD
        (j + 1) []).getD iFTr "" = "1") := by
  have hrT : rT ≠ [] := by
    rintro rfl
    simp at hB
    omega
  have hrTr : rTr ≠ [] := by
    rintro rfl
    simp at hA
  obtain ⟨b, hbmem, hbp0⟩ := exists_of_countP_pos
    (p := fun r => r.getD iIdTr "" == i && r.getD iFTr "" == "0")
    (l := rTr) (by omega)
  have hb' : b.getD iIdTr "" = i ∧ b.getD iFTr "" = "0" := by
    simpa [Bool.and_eq_true, beq_iff_eq] using hbp0
  obtain ⟨a0, ha0mem, ha0p⟩ := exists_of_countP_pos
    (p := fun r => r.getD iIdT "" == i && r.getD iFT "" == "0")
    (l := rT) (by omega)
  have ha0' : a0.getD iIdT "" = i ∧ a0.getD iFT "" = "0" := by
    simpa [Bool.and_eq_true, beq_iff_eq] using ha0p
  have hcnt : (mergedIds ⟨hT :: rT, hTr :: rTr, mS⟩).count i = n := by
    rw [mergedIds_count h1 h2 h3 h4 h7 hrT hrTr mS i, hB, hA, Nat.mul_one]
  have hids : i ∈ mergedIds ⟨hT :: rT, hTr :: rTr, mS⟩ := by
    have := mem_mergedIds h1 h2 h3 h4 h7 hrT hrTr mS ha0mem hbmem
      (by rw [ha0'.1, hb'.1]) ha0'.2 hb'.2
    rwa [ha0'.1] at this
  have hne : (mergedBatch ⟨hT :: rT, hTr :: rTr, mS⟩).rows ≠ [] := by
    intro h0
    have hided : mergedIds ⟨hT :: rT, hTr :: rTr, mS⟩ = [] := by
      unfold mergedIds colValues
      have hout : (mergedOut ⟨hT :: rT, hTr :: rTr, mS⟩).rows = [] := by
        have hlen0 :
            (mergedOut ⟨hT :: rT, hTr :: rTr, mS⟩).rows.length = 0 := by
          rw [mergedOut_rows_count, h0]
          rfl
        exact List.length_eq_zero.mp hlen0
      rw [hout]
      rfl
    rw [hided] at hids
    exact absurd hids (List.not_mem_nil i)
  refine ⟨hcnt, ?_, mergedOut_sent_flags h1 h2 h3 h4 hrT hrTr mS, ?_, ?_⟩
  · rw [mergeData_mergedSheet_eq hne]
    by_cases hemp : (download mS).rows.isEmpty = true
    · rw [hemp, if_pos rfl]
      rw [List.isEmpty_iff.mp hemp]
      simp [updateSheet]
      omega
    · rw [Bool.not_eq_true] at hemp
      rw [hemp, if_neg Bool.false_ne_true]
      simp [updateSheet, concatTables]
      omega
  · intro j hj hkey hfl
    rw [mergeData_tagSheet_eq hne,
      show (⟨hT :: rT, hTr :: rTr, mS⟩ : PipelineState).tagSheet =
        hT :: rT from rfl,
      ums_cons_eq h1 h2, List.getD_cons_succ]
    apply ums_sets_flag hj
    · have hflt : iFT < (rT.getD j []).length := by
        apply lt_length_of_getD_ne
        rw [hfl]
        decide
      omega
    · rw [hkey]
      exact hids
    · rw [hfl]
      decide
  · intro j hj hkey hfl
    rw [mergeData_transcribeSheet_eq hne,
      show (⟨hT :: rT, hTr :: rTr, mS⟩ : PipelineState).transcribeSheet =
        hTr :: rTr from rfl,
      ums_cons_eq h3 h4, List.getD_cons_succ]
    apply ums_sets_flag hj
    · have hflt : iFTr < (rTr.getD j []).length := by
        apply lt_length_of_getD_ne
        rw [hfl]
        decide
      omega
    · rw [hkey]
      exact hids
    · rw [hfl]
      decide

/-- Witness for C8: one unmerged transcribe row, two unmerged tag rows
for the same identifier. -/
theorem c8_repeat_tagging_joins_all_pairs_witness :
    (mergedIds ⟨[["gd_transcript_file_id", "merge_status_tag"],
        ["F2", "0"], ["F2", "0"]],
      [["gd_transcript_file_id", "merge_status_transcribe"], ["F2", "0"]],
      []⟩).count "F2" = 2 ∧
    (mergeData ⟨[["gd_transcript_file_id", "merge_status_tag"],
        ["F2", "0"], ["F2", "0"]],
      [["gd_transcript_file_id", "merge_status_transcribe"], ["F2", "0"]],
      []⟩).mergedSheet.length =
      1 + (download ([] : Sheet)).rows.length +
        (mergedOut ⟨[["gd_transcript_file_id", "merge_status_tag"],
          ["F2", "0"], ["F2", "0"]],
        [["gd_transcript_file_id", "merge_status_transcribe"],
          ["F2", "0"]], []⟩).rows.length ∧
    colValues (mergedOut ⟨[["gd_transcript_file_id", "merge_status_tag"],
        ["F2", "0"], ["F2", "0"]],
      [["gd_transcript_file_id", "merge_status_transcribe"], ["F2", "0"]],
      []⟩) SENT_FLAG_COLUMN =
      List.replicate (mergedOut ⟨[["gd_transcript_file_id",
        "merge_status_tag"], ["F2", "0"], ["F2", "0"]],
      [["gd_transcript_file_id", "merge_status_transcribe"], ["F2", "0"]],
      []⟩).rows.length "0" ∧
    (((mergeData ⟨[["gd_transcript_file_id", "merge_status_tag"],
          ["F2", "0"], ["F2", "0"]],
        [["gd_transcript_file_id", "merge_status_transcribe"],
          ["F2", "0"]], []⟩).tagSheet).getD 1 []).getD 1 "" = "1" ∧
    (((mergeData ⟨[["gd_transcript_file_id", "merge_status_tag"],
          ["F2", "0"], ["F2", "0"]],
        [["gd_transcript_file_id", "merge_status_transcribe"],
          ["F2", "0"]], []⟩).tagSheet).getD 2 []).getD 1 "" = "1" ∧
    (((mergeData ⟨[["gd_transcript_file_id", "merge_status_tag"],
          ["F2", "0"], ["F2", "0"]],
        [["gd_transcript_file_id", "merge_status_transcribe"],
          ["F2", "0"]], []⟩).transcribeSheet).getD 1 []).getD 1 "" =
      "1" :=
  ⟨(@c8_repeat_tagging_joins_all_pairs
    ["gd_transcript_file_id", "merge_status_tag"]
    ["gd_transcript_file_id", "merge_status_transcribe"]
    [["F2", "0"], ["F2", "0"]] [["F2", "0"]] 0 1 0 1
    (by decide) (by decide) (by decide) (by decide) (by decide)
    (by decide) (by decide) [] "F2" 2 (by decide) (by decide)
    (by decide)).1,
   (@c8_repeat_tagging_joins_all_pairs
    ["gd_transcript_file_id", "merge_status_tag"]
    ["gd_transcript_file_id", "merge_status_transcribe"]
    [["F2", "0"], ["F2", "0"]] [["F2", "0"]] 0 1 0 1
    (by decide) (by decide) (by decide) (by decide) (by decide)
    (by decide) (by decide) [] "F2" 2 (by decide) (by decide)
    (by decide)).2.1,
   (@c8_repeat_tagging_joins_all_pairs
    ["gd_transcript_file_id", "merge_status_tag"]
    ["gd_transcript_file_id", "merge_status_transcribe"]
    [["F2", "0"], ["F2", "0"]] [["F2", "0"]] 0 1 0 1
    (by decide) (by decide) (by decide) (by decide) (by decide)
    (by decide) (by decide) [] "F2" 2 (by decide) (by decide)
    (by decide)).2.2.1,
   (@c8_repeat_tagging_joins_all_pairs
    ["gd_transcript_file_id", "merge_status_tag"]
    ["gd_transcript_file_id", "merge_status_transcribe"]
    [["F2", "0"], ["F2", "0"]] [["F2", "0"]] 0 1 0 1
    (by decide) (by decide) (by decide) (by decide) (by decide)
    (by decide) (by decide) [] "F2" 2 (by decide) (by decide)
    (by decide)).2.2.2.1 0 (by decide) (by decide) (by decide),
   (@c8_repeat_tagging_joins_all_pairs
    ["gd_transcript_file_id", "merge_status_tag"]
    ["gd_transcript_file_id", "merge_status_transcribe"]
    [["F2", "0"], ["F2", "0"]] [["F2", "0"]] 0 1 0 1
    (by decide) (by decide) (by decide) (by decide) (by decide)
    (by decide) (by decide) [] "F2" 2 (by decide) (by decide)
    (by decide)).2.2.2.1 1 (by decide) (by decide) (by decide),
   (@c8_repeat_tagging_joins_all_pairs
    ["gd_transcript_file_id", "merge_status_tag"]
    ["gd_transcript_file_id", "merge_status_transcribe"]
    [["F2", "0"], ["F2", "0"]] [["F2", "0"]] 0 1 0 1
    (by decide) (by decide) (by decide) (by decide) (by decide)
    (by decide) (by decide) [] "F2" 2 (by decide) (by decide)
    (by decide)).2.2.2.2 0 (by decide) (by decide) (by decide)⟩

end ClaimEight

end NOS
